import Mathlib

/-!
# ConnectionChecker: a verification development

A shallow embedding of `main.go` of the connection checker: the probe runner
(`runTracerouteWithTimeout`), the task coordinator (`runConcurrentTraceroutes`),
the public-IP resolver (`getLocalIP`, `getPublicIP`, `getLocalNetworkIP`), the
output path selector (`getOutputFilePathGUI`) and the two loops of `main` that
render the report sections and the run summary.

Conventions.
* A Go `error` is an `Option String`: `none` is `nil`, `some msg` is an error
  whose text is `msg`.
* A Go multiple return `(string, error)` is a Lean pair.
* What the operating system, the network, the clock and the text formatting
  of the standard library answer is a parameter (`ProbeEnv`, `NetEnv`, `Fmt`,
  `World`), never a fixed value. Four pure library functions the claims depend
  on are transcribed from the Go standard library: `net.IP.To4`,
  `net.IP.IsLoopback`, `os.IsPathSeparator` and `filepath.Ext`.
* The goroutines of `runConcurrentTraceroutes` are embedded as an interleaving
  semantics: every goroutine is a small program with a program counter, and a
  scheduler picks, step after step, which enabled goroutine moves. The program
  is free of data races (every goroutine writes its own slot of the results
  slice, the counter is touched only under the mutex, the caller reads after
  `wg.Wait()`), so interleavings of these steps are all its behaviours.
-/

namespace ConnectionChecker

/-! ## Data model -/

/-- A reading of the wall clock (`time.Time`), in nanoseconds. -/
abbrev Time := Nat

/-- A `time.Duration`, in nanoseconds. -/
abbrev Duration := Nat

/-- The package-level slice `hostnames` of `main.go`. The functions below take
the list of targets as an argument, of which this is the value in the program. -/
def hostnames : List String :=
  [ "beauharnois.dathost.net", "new-york-city.dathost.net", "los-angeles.dathost.net",
    "miami.dathost.net", "chicago.dathost.net", "portland.dathost.net", "dallas.dathost.net",
    "atlanta.dathost.net", "denver.dathost.net", "copenhagen.dathost.net",
    "helsinki.dathost.net", "strasbourg.dathost.net", "dusseldorf.dathost.net",
    "amsterdam.dathost.net", "warsaw.dathost.net", "barcelona.dathost.net",
    "stockholm.dathost.net", "istanbul.dathost.net", "bristol.dathost.net",
    "sydney.dathost.net", "sao-paulo.dathost.net", "santiago.dathost.net",
    "hong-kong.dathost.net", "mumbai.dathost.net", "tokyo.dathost.net",
    "singapore.dathost.net", "johannesburg.dathost.net", "seoul.dathost.net",
    "oslo.dathost.net", "prague.dathost.net", "milan.dathost.net", "bucharest.dathost.net",
    "dublin.dathost.net", "auckland.dathost.net" ]

/-- The Go struct `TracerouteResult`. -/
structure TracerouteResult where
  Hostname : String
  Index : Nat
  Result : String
  Error : Option String
  StartTime : Time
  EndTime : Time
  TimedOut : Bool
deriving DecidableEq, Repr

/-- The zero value of `TracerouteResult`, as `make` fills a fresh slice with. -/
def TracerouteResult.zero : TracerouteResult :=
  ⟨"", 0, "", none, 0, 0, false⟩

/-- Text formatting done by the standard library (`%v` of a duration,
`Time.Format("15:04:05")`, and `EndTime.Sub(StartTime).Round(time.Second)`
printed with `%v`). -/
structure Fmt where
  duration : Duration → String
  clock : Time → String
  elapsed : Time → Time → String

/-- `2*time.Minute` in nanoseconds. -/
def twoMinutes : Duration := 2 * 60 * 1000000000

/-! ## Probe runner -/

/-- The values `ctx.Err()` can take besides `nil`. -/
inductive CtxErr where
  | DeadlineExceeded
  | Canceled
deriving DecidableEq, Repr

/-- What one call of `cmd.Output()` gives back: the captured standard output,
the error, and what `ctx.Err()` reads once `Output` has returned. -/
structure CmdRun where
  stdout : String
  err : Option String
  ctxErr : Option CtxErr
deriving DecidableEq, Repr

/-- The operating system as the probe runner meets it: `lookPath name` is true
when `exec.LookPath(name)` returns a nil error, and `output name arg timeout`
is the run of `exec.CommandContext(ctx, name, arg).Output()` under a context
with the given timeout. -/
structure ProbeEnv where
  lookPath : String → Bool
  output : String → String → Duration → CmdRun

/-- The three values returned by `runTracerouteWithTimeout`, together with the
commands it ran through `cmd.Output()` (program name, argument). -/
structure ProbeRun where
  output : String
  err : Option String
  timedOut : Bool
  commands : List (String × String)
deriving DecidableEq, Repr

/-- Lines 293-302 of `main.go`: run the chosen command and classify the outcome. -/
def runCommand (env : ProbeEnv) (fmt : Fmt) (name hostname : String)
    (timeout : Duration) : ProbeRun :=
  let r := env.output name hostname timeout
  match r.err with
  | some e =>
    if r.ctxErr = some CtxErr.DeadlineExceeded then
      ⟨"", some ("traceroute timed out after " ++ fmt.duration timeout), true,
        [(name, hostname)]⟩
    else
      ⟨"", some ("command execution failed: " ++ e), false, [(name, hostname)]⟩
  | none => ⟨r.stdout, none, false, [(name, hostname)]⟩

/-- The Go function `runTracerouteWithTimeout`. -/
def runTracerouteWithTimeout (env : ProbeEnv) (fmt : Fmt) (hostname : String)
    (timeout : Duration) : ProbeRun :=
  if env.lookPath "traceroute" then
    runCommand env fmt "traceroute" hostname timeout
  else if env.lookPath "tracert" then
    runCommand env fmt "tracert" hostname timeout
  else
    ⟨"", some "neither traceroute nor tracert command found", false, []⟩

/-! ## Public-IP resolver -/

/-- A `net.IP`: a byte slice. -/
abbrev IP := List Nat

/-- `net.IP.To4` of the Go standard library: the 4-byte form of an IPv4
address (4 bytes, or 16 bytes with the IPv4-in-IPv6 header), else nil. -/
def IP.To4 (ip : IP) : Option IP :=
  if ip.length = 4 then some ip
  else if ip.length = 16 ∧ ip.take 10 = List.replicate 10 0 ∧
      ip.getD 10 0 = 255 ∧ ip.getD 11 0 = 255 then some (ip.drop 12)
  else none

/-- `net.IP.IsLoopback` of the Go standard library. -/
def IP.IsLoopback (ip : IP) : Bool :=
  match IP.To4 ip with
  | some ip4 => ip4.getD 0 0 = 127
  | none => ip = List.replicate 15 0 ++ [1]

/-- A `net.Addr` as `iface.Addrs()` can return it: a `*net.IPNet` (address and
mask length) or a value of another dynamic type, seen as its text. -/
inductive Addr where
  | IPNet (ip : IP) (ones : Nat)
  | Other (text : String)
deriving DecidableEq, Repr

/-- `net.FlagUp`. -/
def FlagUp : Nat := 1

/-- `net.FlagLoopback`. -/
def FlagLoopback : Nat := 4

/-- A `net.Interface` with the answer of its `Addrs()` method (`none` when
`Addrs()` returns an error). -/
structure Interface where
  Name : String
  Flags : Nat
  Addrs : Option (List Addr)
deriving DecidableEq, Repr

/-- The answer to `client.Get`: status code and the result of `io.ReadAll` on
the body (left is the read error). -/
structure HTTPResponse where
  StatusCode : Nat
  Body : String ⊕ String
deriving DecidableEq, Repr

/-- The network and the library as the resolver meets them. -/
structure NetEnv where
  /-- Answer of `client.Get("https://api.ipify.org?format=text")`. -/
  get : String ⊕ HTTPResponse
  /-- The function `strings.TrimSpace`. -/
  trimSpace : String → String
  /-- Whether `net.ParseIP(s)` is non-nil. -/
  parseIP : String → Bool
  /-- Answer of `net.Interfaces()`. -/
  interfaces : String ⊕ List Interface
  /-- The method `net.IP.String`. -/
  ipString : IP → String

/-- The Go function `getPublicIP`. -/
def getPublicIP (env : NetEnv) : String × Option String :=
  match env.get with
  | .inl e => ("", some ("failed to contact ipify.org: " ++ e))
  | .inr resp =>
    if resp.StatusCode ≠ 200 then
      ("", some ("ipify.org returned status " ++ toString resp.StatusCode))
    else
      match resp.Body with
      | .inl e => ("", some ("failed to read response: " ++ e))
      | .inr body =>
        let ip := env.trimSpace body
        if env.parseIP ip = false then
          ("", some ("invalid IP address received: " ++ ip))
        else (ip, none)

/-- The inner loop of `getLocalNetworkIP` over the addresses of one interface:
the text of the first `*net.IPNet` whose IP is not loopback and has a 4-byte
form. -/
def scanAddrs (env : NetEnv) : List Addr → Option String
  | [] => none
  | Addr.IPNet ip _ :: rest =>
    if !IP.IsLoopback ip then
      if (IP.To4 ip).isSome then some (env.ipString ip) else scanAddrs env rest
    else scanAddrs env rest
  | Addr.Other _ :: rest => scanAddrs env rest

/-- The outer loop of `getLocalNetworkIP` over the interfaces. -/
def scanInterfaces (env : NetEnv) : List Interface → String × Option String
  | [] => ("", some "no active network interface found")
  | iface :: rest =>
    if iface.Flags &&& FlagUp = 0 ∨ iface.Flags &&& FlagLoopback ≠ 0 then
      scanInterfaces env rest
    else
      match iface.Addrs with
      | none => scanInterfaces env rest
      | some addrs =>
        match scanAddrs env addrs with
        | some s => (s, none)
        | none => scanInterfaces env rest

/-- The Go function `getLocalNetworkIP`. -/
def getLocalNetworkIP (env : NetEnv) : String × Option String :=
  match env.interfaces with
  | .inl e => ("", some e)
  | .inr interfaces => scanInterfaces env interfaces

/-- The Go function `getLocalIP`. -/
def getLocalIP (env : NetEnv) : String × Option String :=
  let r := getPublicIP env
  if r.2 = none ∧ r.1 ≠ "" then (r.1, none)
  else getLocalNetworkIP env

/-! ## Output path selector -/

/-- The platform, as far as `os.IsPathSeparator` depends on it. -/
inductive GOOS where
  | unix
  | windows
deriving DecidableEq, Repr

/-- `os.IsPathSeparator`. -/
def IsPathSeparator (os : GOOS) (c : Char) : Bool :=
  match os with
  | GOOS.unix => c = '/'
  | GOOS.windows => c = '\\' || c = '/'

/-- The loop of `filepath.Ext`, walking the path from its end: `rev` is what is
left of the reversed path, `acc` the suffix already walked over. -/
def extLoop (os : GOOS) : List Char → List Char → List Char
  | [], _ => []
  | c :: rev, acc =>
    if IsPathSeparator os c then []
    else if c = '.' then c :: acc
    else extLoop os rev (c :: acc)

/-- `filepath.Ext` of the Go standard library: the suffix beginning at the
final dot in the final element of the path, empty if there is no dot. -/
def Ext (os : GOOS) (path : String) : String :=
  String.mk (extLoop os path.data.reverse [])

/-- The Go function `getOutputFilePathGUI`, after the dialog has answered
`dialog` (the two values returned by `zenity.SelectFileSave`). -/
def getOutputFilePathGUI (os : GOOS) (dialog : String × Option String) :
    String × Option String :=
  match dialog.2 with
  | some e => ("", some e)
  | none =>
    let filename := dialog.1
    if Ext os filename = "" then (filename ++ ".txt", none) else (filename, none)

/-! ## Report writer: the two loops of `main` over the results -/

/-- `strings.Repeat`. -/
def Repeat (s : String) (count : Nat) : String :=
  String.join (List.replicate count s)

/-- One iteration of the loop at lines 115-139 of `main.go`: the strings handed
to `file.WriteString`, in order. -/
def writeSection (fmt : Fmt) (result : TracerouteResult) : List String :=
  let hostnameHeader := "TRACEROUTE TO: " ++ result.Hostname
  [ hostnameHeader ++ "\n",
    Repeat "~" hostnameHeader.utf8ByteSize ++ "\n",
    "Started at: " ++ fmt.clock result.StartTime ++ "\n",
    "Completed at: " ++ fmt.clock result.EndTime ++ "\n",
    "Duration: " ++ fmt.elapsed result.StartTime result.EndTime ++ "\n",
    if result.TimedOut then "Status: TIMED OUT (exceeded 2-minute limit)\n\n"
    else "Status: COMPLETED\n\n",
    match result.Error with
    | some e => "Error running traceroute to " ++ result.Hostname ++ ": " ++ e ++ "\n"
    | none => result.Result,
    "\n" ++ Repeat "-" 80 ++ "\n\n" ]

/-- The loop at lines 115-139: `file` is the sequence of strings written so
far, each iteration appends its writes. -/
def writeResults (fmt : Fmt) (file : List String) (results : List TracerouteResult) :
    List String :=
  results.foldl (fun f result => f ++ writeSection fmt result) file

/-- The three counters of the results summary. -/
structure Summary where
  successful : Nat
  timedOut : Nat
  failed : Nat
deriving DecidableEq, Repr

/-- The body of the loop at lines 158-166. -/
def countResult (c : Summary) (result : TracerouteResult) : Summary :=
  if result.TimedOut then { c with timedOut := c.timedOut + 1 }
  else if result.Error ≠ none then { c with failed := c.failed + 1 }
  else { c with successful := c.successful + 1 }

/-- The loop at lines 154-166. -/
def summarize (results : List TracerouteResult) : Summary :=
  results.foldl countResult ⟨0, 0, 0⟩

/-! ## Task coordinator: `runConcurrentTraceroutes` as an interleaving semantics -/

/-- The local variables of one goroutine started by `runConcurrentTraceroutes`,
with its program counter:

* 0: `traceStartTime := time.Now()`
* 1: `result, err, timedOut := runTracerouteWithTimeout(host, 2*time.Minute)`
* 2: `traceEndTime := time.Now()`
* 3: `results[index] = TracerouteResult{...}`
* 4: `completedMutex.Lock()`
* 5, 6: `completed++`, as a load into `tmp` and a store of `tmp + 1`
* 7: `currentCompleted := completed`
* 8: `completedMutex.Unlock()`
* 9: the `fmt.Printf` of the progress line
* 10: the deferred `wg.Done()`
* 11: finished. -/
structure Task where
  index : Nat
  host : String
  pc : Nat
  traceStartTime : Time
  result : String
  err : Option String
  timedOut : Bool
  traceEndTime : Time
  tmp : Nat
  currentCompleted : Nat
deriving DecidableEq, Repr

/-- A goroutine just created by `go func(index int, host string)`. -/
def Task.start (index : Nat) (host : String) : Task :=
  ⟨index, host, 0, 0, "", none, false, 0, 0, 0⟩

/-- What the run meets from outside: the operating system seen by the probe of
the i-th goroutine, and the reading of `time.Now()` at the t-th step. -/
structure World where
  probe : Nat → ProbeEnv
  now : Nat → Time

/-- The shared variables of `runConcurrentTraceroutes` and its goroutines:
`spawned` goroutines have been started so far, `tasks i` is the i-th of them,
`locked` is the state of `completedMutex`, `wg` the counter of the wait group,
`steps` the number of steps taken (the instant read by `time.Now()`). -/
structure State where
  results : List TracerouteResult
  completed : Nat
  locked : Bool
  wg : Nat
  spawned : Nat
  tasks : Nat → Task
  returned : Bool
  steps : Nat
  stdout : List String
  startTime : Time

/-- The state after lines 179-187: the results slice is made, the counter is
zero, the banner is printed and `startTime` is read. -/
def init (w : World) (hostnames : List String) : State where
  results := List.replicate hostnames.length TracerouteResult.zero
  completed := 0
  locked := false
  wg := 0
  spawned := 0
  tasks := fun i => Task.start i ""
  returned := false
  steps := 1
  stdout :=
    [ "🚀 Starting " ++ toString hostnames.length ++ " traceroutes...\n",
      "This may take several minutes depending on your network connection...\n",
      "Please do not close this window until the traceroutes are complete.\n\n" ]
  startTime := w.now 0

/-- The progress line printed at lines 215-223. -/
def progressLine (fmt : Fmt) (total : Nat) (t : Task) : String :=
  if t.timedOut then
    "⏰ [" ++ toString t.currentCompleted ++ "/" ++ toString total ++ "] " ++ t.host ++
      " - Timed out after 2 minutes\n"
  else
    match t.err with
    | some e =>
      "❌ [" ++ toString t.currentCompleted ++ "/" ++ toString total ++ "] " ++ t.host ++
        " - Error: " ++ e ++ "\n"
    | none =>
      "✅ [" ++ toString t.currentCompleted ++ "/" ++ toString total ++ "] " ++ t.host ++
        " - Completed in " ++ fmt.elapsed t.traceStartTime t.traceEndTime ++ "\n"

/-- Store the local state of goroutine `i` and let one instant pass. -/
def State.commit (s : State) (i : Nat) (t : Task) : State :=
  { s with tasks := Function.update s.tasks i t, steps := s.steps + 1 }

/-- One step of goroutine `i`, by its program counter. -/
def taskStep (w : World) (fmt : Fmt) (total : Nat) (s : State) (i : Nat) : State :=
  let t := s.tasks i
  match t.pc with
  | 0 => s.commit i { t with traceStartTime := w.now s.steps, pc := 1 }
  | 1 =>
    let r := runTracerouteWithTimeout (w.probe i) fmt t.host twoMinutes
    s.commit i { t with result := r.output, err := r.err, timedOut := r.timedOut, pc := 2 }
  | 2 => s.commit i { t with traceEndTime := w.now s.steps, pc := 3 }
  | 3 =>
    let entry : TracerouteResult :=
      ⟨t.host, t.index, t.result, t.err, t.traceStartTime, t.traceEndTime, t.timedOut⟩
    State.commit { s with results := s.results.set t.index entry } i { t with pc := 4 }
  | 4 => State.commit { s with locked := true } i { t with pc := 5 }
  | 5 => s.commit i { t with tmp := s.completed, pc := 6 }
  | 6 => State.commit { s with completed := t.tmp + 1 } i { t with pc := 7 }
  | 7 => s.commit i { t with currentCompleted := s.completed, pc := 8 }
  | 8 => State.commit { s with locked := false } i { t with pc := 9 }
  | 9 =>
    State.commit { s with stdout := s.stdout ++ [progressLine fmt total t] } i { t with pc := 10 }
  | 10 => State.commit { s with wg := s.wg - 1 } i { t with pc := 11 }
  | _ => s

/-- Goroutine `i` can take a step: it exists, has not finished, and is not
waiting for a mutex that is held. -/
def taskEnabled (s : State) (i : Nat) : Bool :=
  decide (i < s.spawned) && decide ((s.tasks i).pc < 11) &&
    (decide ((s.tasks i).pc ≠ 4) || !s.locked)

/-- The calling goroutine can take a step: the range loop has an iteration
left, or it stands at `wg.Wait()` and the counter of the wait group is zero. -/
def mainEnabled (hostnames : List String) (s : State) : Bool :=
  decide (s.spawned < hostnames.length) || (!s.returned && decide (s.wg = 0))

/-- One step of the calling goroutine: an iteration of the loop at lines
190-225 (`wg.Add(1)` and the `go` statement), or the return from `wg.Wait()`
followed by lines 230-233. -/
def mainStep (w : World) (fmt : Fmt) (hostnames : List String) (s : State) : State :=
  if s.spawned < hostnames.length then
    { s with
      wg := s.wg + 1
      tasks := Function.update s.tasks s.spawned
        (Task.start s.spawned (hostnames.getD s.spawned ""))
      spawned := s.spawned + 1
      steps := s.steps + 1 }
  else
    { s with
      returned := true
      stdout := s.stdout ++
        ["\n🎉 All traceroutes completed in " ++ fmt.elapsed s.startTime (w.now s.steps) ++ "\n"]
      steps := s.steps + 1 }

/-- Who moves: the calling goroutine or the i-th started goroutine. -/
inductive Action where
  | caller
  | task (i : Nat)
deriving DecidableEq, Repr

/-- The actions that can be taken in a state. -/
def enabled (hostnames : List String) (s : State) : List Action :=
  (if mainEnabled hostnames s then [Action.caller] else []) ++
    ((List.range s.spawned).filter (taskEnabled s)).map Action.task

/-- Take an action. -/
def step (w : World) (fmt : Fmt) (hostnames : List String) (s : State) : Action → State
  | Action.caller => mainStep w fmt hostnames s
  | Action.task i => taskStep w fmt hostnames.length s i

/-- One step of the whole program: the scheduler's number `choice` picks one
of the enabled actions; with none enabled the state stays. -/
def next (w : World) (fmt : Fmt) (hostnames : List String) (s : State) (choice : Nat) :
    State :=
  match enabled hostnames s with
  | [] => s
  | a :: as => step w fmt hostnames s ((a :: as).getD (choice % (as.length + 1)) a)

/-- The state after `k` steps under the scheduler `sched`, which says at every
instant which of the enabled actions moves. -/
def run (w : World) (fmt : Fmt) (hostnames : List String) (sched : Nat → Nat) : Nat → State
  | 0 => init w hostnames
  | k + 1 => next w fmt hostnames (run w fmt hostnames sched k) (sched k)

/-- The number of steps after which every run has returned: one per loop
iteration, eleven per goroutine, one for the return. -/
def fuel (hostnames : List String) : Nat := 12 * hostnames.length + 1

/-- The Go function `runConcurrentTraceroutes` under a scheduler, with the
package-level slice `hostnames` as an argument: the results slice once the
calling goroutine has returned from `wg.Wait()`, `none` if it has not returned
within `fuel` steps. -/
def runConcurrentTraceroutes (w : World) (fmt : Fmt) (hostnames : List String)
    (sched : Nat → Nat) : Option (List TracerouteResult) :=
  let s := run w fmt hostnames sched (fuel hostnames)
  if s.returned then some s.results else none

/-! ## Auxiliary definitions for the statements -/

/-- An interface the loop of `getLocalNetworkIP` does not skip: up, and not a loopback interface. -/
def Interface.eligible (iface : Interface) : Bool :=
  !(decide (iface.Flags &&& FlagUp = 0) || decide (iface.Flags &&& FlagLoopback ≠ 0))

/-- The IP of an address when it is an IPv4 address in the sense of the claim:
a `*net.IPNet` whose IP has a 4-byte form. -/
def Addr.ipv4 : Addr → Option IP
  | Addr.IPNet ip _ => if (IP.To4 ip).isSome then some ip else none
  | Addr.Other _ => none

/-- The IP of an address when the inner loop of the code accepts it: an IPv4
address that is not a loopback address. -/
def Addr.accepted : Addr → Option IP
  | Addr.IPNet ip _ => if !IP.IsLoopback ip && (IP.To4 ip).isSome then some ip else none
  | Addr.Other _ => none

/-- The addresses of the interfaces that are up and not loopback, in interface
order then address order. -/
def eligibleAddrs (interfaces : List Interface) : List Addr :=
  (interfaces.filter Interface.eligible).flatMap fun iface => iface.Addrs.getD []

/-- The claim in its own words: the first IPv4 address, in interface order then
address order, among the addresses of interfaces that are up and not loopback;
an error if and only if there is none. -/
def claimedLocalNetworkIP (env : NetEnv) (interfaces : List Interface) :
    String × Option String :=
  match (eligibleAddrs interfaces).findSome? Addr.ipv4 with
  | some ip => (env.ipString ip, none)
  | none => ("", some "no active network interface found")

/-- The amended claim: the first IPv4 address that is not a loopback address. -/
def amendedLocalNetworkIP (env : NetEnv) (interfaces : List Interface) :
    String × Option String :=
  match (eligibleAddrs interfaces).findSome? Addr.accepted with
  | some ip => (env.ipString ip, none)
  | none => ("", some "no active network interface found")

/-- Dotted-decimal text of an address, as `net.IP.String` prints a 4-byte IP. -/
def dottedQuad (ip : IP) : String :=
  ".".intercalate (ip.map toString)

/-- A machine whose only active interface carries a loopback-range address
before its LAN address. The flags are those of a usual `lo`
(up, loopback, running: 1 + 4 + 32) and `eth0`
(up, broadcast, multicast, running: 1 + 2 + 16 + 32). -/
def loopbackFirstEnv : NetEnv where
  get := .inl "dial tcp: no route to host"
  trimSpace := id
  parseIP := fun _ => false
  interfaces := .inr
    [ ⟨"lo", 37, some [Addr.IPNet [127, 0, 0, 1] 8]⟩,
      ⟨"eth0", 51, some [Addr.IPNet [127, 0, 0, 5] 8, Addr.IPNet [10, 0, 0, 2] 24]⟩ ]
  ipString := dottedQuad

/-- A machine whose only active interface carries nothing but a loopback-range address. -/
def loopbackOnlyEnv : NetEnv where
  get := .inl "dial tcp: no route to host"
  trimSpace := id
  parseIP := fun _ => false
  interfaces := .inr [ ⟨"eth0", 51, some [Addr.IPNet [127, 0, 0, 5] 8]⟩ ]
  ipString := dottedQuad

/-- The sum of `f 0, ..., f (n - 1)`. -/
def sumUpTo : Nat → (Nat → Nat) → Nat
  | 0, _ => 0
  | n + 1, f => sumUpTo n f + f n

/-- The invariant of the interleaving semantics of `runConcurrentTraceroutes`. -/
structure Invariant (w : World) (fmt : Fmt) (hostnames : List String) (s : State) : Prop where
  spawned_le : s.spawned ≤ hostnames.length
  results_len : s.results.length = hostnames.length
  ident : ∀ i, i < s.spawned →
    (s.tasks i).index = i ∧ (s.tasks i).host = hostnames.getD i "" ∧ (s.tasks i).pc ≤ 11
  probed : ∀ i, i < s.spawned → 2 ≤ (s.tasks i).pc →
    (s.tasks i).result
        = (runTracerouteWithTimeout (w.probe i) fmt (hostnames.getD i "") twoMinutes).output ∧
      (s.tasks i).err
        = (runTracerouteWithTimeout (w.probe i) fmt (hostnames.getD i "") twoMinutes).err ∧
      (s.tasks i).timedOut
        = (runTracerouteWithTimeout (w.probe i) fmt (hostnames.getD i "") twoMinutes).timedOut
  stored : ∀ i, i < s.spawned → 4 ≤ (s.tasks i).pc →
    s.results[i]? = some ⟨hostnames.getD i "", i, (s.tasks i).result, (s.tasks i).err,
      (s.tasks i).traceStartTime, (s.tasks i).traceEndTime, (s.tasks i).timedOut⟩
  mutex : ∀ i j, i < s.spawned → j < s.spawned →
    5 ≤ (s.tasks i).pc ∧ (s.tasks i).pc ≤ 8 → 5 ≤ (s.tasks j).pc ∧ (s.tasks j).pc ≤ 8 → i = j
  locked_iff : s.locked = true ↔ ∃ i, i < s.spawned ∧ 5 ≤ (s.tasks i).pc ∧ (s.tasks i).pc ≤ 8
  loaded : ∀ i, i < s.spawned → (s.tasks i).pc = 6 → (s.tasks i).tmp = s.completed
  counted : s.completed = sumUpTo s.spawned (fun i => if 7 ≤ (s.tasks i).pc then 1 else 0)
  wg_eq : s.wg = sumUpTo s.spawned (fun i => if (s.tasks i).pc < 11 then 1 else 0)
  cur_range : ∀ i, i < s.spawned → 8 ≤ (s.tasks i).pc →
    1 ≤ (s.tasks i).currentCompleted ∧ (s.tasks i).currentCompleted ≤ s.completed
  cur_inj : ∀ i j, i < s.spawned → j < s.spawned → 8 ≤ (s.tasks i).pc → 8 ≤ (s.tasks j).pc →
    (s.tasks i).currentCompleted = (s.tasks j).currentCompleted → i = j
  cur_fresh : ∀ i j, i < s.spawned → j < s.spawned → (s.tasks i).pc = 7 → 8 ≤ (s.tasks j).pc →
    (s.tasks j).currentCompleted < s.completed
  returned_done : s.returned = true →
    s.spawned = hostnames.length ∧ ∀ i, i < s.spawned → (s.tasks i).pc = 11

/-- The number of steps taken so far, read off the state: loop iterations of
the caller, program counters of the goroutines, and the return. -/
def stepsTaken (s : State) : Nat :=
  s.spawned + sumUpTo s.spawned (fun i => (s.tasks i).pc) + (if s.returned then 1 else 0)

/-! ## Concrete environments for the examples -/

/-- A formatter for the examples: durations print as "2m0s", instants and
elapsed times as plain numbers. -/
def demoFmt : Fmt := ⟨fun _ => "2m0s", fun t => toString t, fun a b => toString (b - a)⟩

/-- A Windows machine on which the probe outlives the deadline: only `tracert`
is on the search path, and its run ends with an error after the context has
expired, some output having been produced by then. -/
def slowProbe : ProbeEnv :=
  ⟨fun name => name = "tracert",
   fun _ _ _ => ⟨" 1  10.0.0.1  1 ms\n", some "exit status 1", some CtxErr.DeadlineExceeded⟩⟩

/-- A machine on which `traceroute` finishes by itself after the deadline has
passed: `cmd.Output()` returns the whole output with a nil error, and
`ctx.Err()` read afterwards is `context.DeadlineExceeded`. -/
def lateProbe : ProbeEnv :=
  ⟨fun name => name = "traceroute",
   fun _ _ _ => ⟨"hop1\nlate\n", none, some CtxErr.DeadlineExceeded⟩⟩

/-- A machine with neither tool on the search path. -/
def bareProbe : ProbeEnv :=
  ⟨fun _ => false, fun _ _ _ => ⟨"", none, none⟩⟩

/-- A machine with `traceroute`, every probe succeeding. -/
def healthyProbe : ProbeEnv :=
  ⟨fun name => name = "traceroute", fun _ host _ => ⟨"hops to " ++ host, none, none⟩⟩

/-- A world in which every probe succeeds and the clock advances by one at
every step of the run. -/
def tickingWorld : World := ⟨fun _ => healthyProbe, fun t => t⟩

/-- The lookup service answers 200 with an HTML error page; the machine has
one active interface. -/
def htmlPageEnv : NetEnv where
  get := .inr ⟨200, .inr "<html><body>502 Bad Gateway</body></html>"⟩
  trimSpace := id
  parseIP := fun s => s = "203.0.113.7"
  interfaces := .inr [ ⟨"eth0", 51, some [Addr.IPNet [192, 168, 1, 20] 24]⟩ ]
  ipString := dottedQuad

/-! ## Lemmas on the sequential functions -/

/-- The program probes 34 targets. -/
theorem hostnames_length : hostnames.length = 34 := rfl

theorem runCommand_commands (env : ProbeEnv) (fmt : Fmt) (name hostname : String)
    (timeout : Duration) :
    (runCommand env fmt name hostname timeout).commands = [(name, hostname)] := by
  unfold runCommand
  simp only
  split
  · split_ifs <;> rfl
  · rfl

theorem runCommand_sound (env : ProbeEnv) (fmt : Fmt) (name hostname : String)
    (timeout : Duration) :
    ((runCommand env fmt name hostname timeout).timedOut = true →
        (runCommand env fmt name hostname timeout).err ≠ none) ∧
      ((runCommand env fmt name hostname timeout).err ≠ none →
        (runCommand env fmt name hostname timeout).output = "") := by
  unfold runCommand
  simp only
  split
  · split_ifs <;> simp
  · simp

theorem probe_sound (env : ProbeEnv) (fmt : Fmt) (hostname : String) (timeout : Duration) :
    ((runTracerouteWithTimeout env fmt hostname timeout).timedOut = true →
        (runTracerouteWithTimeout env fmt hostname timeout).err ≠ none) ∧
      ((runTracerouteWithTimeout env fmt hostname timeout).err ≠ none →
        (runTracerouteWithTimeout env fmt hostname timeout).output = "") := by
  unfold runTracerouteWithTimeout
  split_ifs
  · exact runCommand_sound env fmt _ hostname timeout
  · exact runCommand_sound env fmt _ hostname timeout
  · simp

theorem summarize_counts (results : List TracerouteResult) (c : Summary) :
    (results.foldl countResult c).timedOut
        = c.timedOut + results.countP (fun r => r.TimedOut) ∧
      (results.foldl countResult c).failed
        = c.failed + results.countP (fun r => !r.TimedOut && r.Error.isSome) ∧
      (results.foldl countResult c).successful
        = c.successful + results.countP (fun r => !r.TimedOut && r.Error.isNone) := by
  induction results generalizing c with
  | nil => simp
  | cons r rs ih =>
    simp only [List.foldl_cons]
    obtain ⟨a, b, d⟩ := ih (countResult c r)
    rw [a, b, d]
    unfold countResult
    cases ht : r.TimedOut <;> cases he : r.Error <;>
      simp [List.countP_cons, ht, he] <;> omega

theorem summarize_total (results : List TracerouteResult) :
    (summarize results).successful + (summarize results).timedOut + (summarize results).failed
      = results.length := by
  suffices h : ∀ (l : List TracerouteResult) (c : Summary),
      (l.foldl countResult c).successful + (l.foldl countResult c).timedOut
        + (l.foldl countResult c).failed
        = c.successful + c.timedOut + c.failed + l.length by
    simpa [summarize] using h results ⟨0, 0, 0⟩
  intro l
  induction l with
  | nil => intro c; simp
  | cons r rs ih =>
    intro c
    simp only [List.foldl_cons, List.length_cons]
    rw [ih]
    unfold countResult
    split_ifs <;> simp <;> omega

theorem Ext_append_txt (os : GOOS) (path : String) : Ext os (path ++ ".txt") = ".txt" := by
  cases os <;> simp [Ext, extLoop, IsPathSeparator]

theorem writeResults_eq (fmt : Fmt) (results : List TracerouteResult) (file : List String) :
    writeResults fmt file results = file ++ (results.map (writeSection fmt)).flatten := by
  induction results generalizing file with
  | nil => simp [writeResults]
  | cons r rs ih =>
    have := ih (file ++ writeSection fmt r)
    simp only [writeResults, List.foldl_cons] at this ⊢
    rw [this]; simp

theorem scanAddrs_eq (env : NetEnv) (addrs : List Addr) :
    scanAddrs env addrs = (addrs.findSome? Addr.accepted).map env.ipString := by
  induction addrs with
  | nil => rfl
  | cons a rest ih =>
    cases a with
    | IPNet ip ones =>
      unfold scanAddrs
      cases hl : IP.IsLoopback ip <;> cases h4 : (IP.To4 ip).isSome <;>
        simp [List.findSome?_cons, Addr.accepted, hl, h4, ih]
    | Other text =>
      unfold scanAddrs
      simp [List.findSome?_cons, Addr.accepted, ih]

theorem eligibleAddrs_cons (iface : Interface) (rest : List Interface) :
    eligibleAddrs (iface :: rest)
      = (if iface.eligible then iface.Addrs.getD [] else []) ++ eligibleAddrs rest := by
  unfold eligibleAddrs
  cases h : iface.eligible <;> simp [List.filter_cons, h]

theorem scanInterfaces_eq (env : NetEnv) (interfaces : List Interface) :
    scanInterfaces env interfaces = amendedLocalNetworkIP env interfaces := by
  induction interfaces with
  | nil => rfl
  | cons iface rest ih =>
    unfold scanInterfaces
    unfold amendedLocalNetworkIP at ih ⊢
    rw [eligibleAddrs_cons, List.findSome?_append]
    by_cases hskip : iface.Flags &&& FlagUp = 0 ∨ iface.Flags &&& FlagLoopback ≠ 0
    · have he : iface.eligible = false := by
        simp only [Interface.eligible]
        rcases hskip with h | h <;> simp [h]
      rw [if_pos hskip, ih]
      simp [he]
    · have he : iface.eligible = true := by
        simp only [Interface.eligible]
        push_neg at hskip
        simp [hskip.1, hskip.2]
      rw [if_neg hskip]
      cases ha : iface.Addrs with
      | none =>
        simp only
        rw [ih]
        simp [he]
      | some addrs =>
        simp only
        rw [scanAddrs_eq]
        cases hh : addrs.findSome? Addr.accepted with
        | none =>
          simp only [Option.map_none']
          rw [ih]
          simp [he, hh]
        | some ip =>
          simp [he, hh]

/-! ## The invariant of the interleaving semantics -/

theorem sumUpTo_congr {n : Nat} {f g : Nat → Nat} (h : ∀ j, j < n → f j = g j) :
    sumUpTo n f = sumUpTo n g := by
  induction n with
  | zero => rfl
  | succ n ih =>
    simp only [sumUpTo]
    rw [ih (fun j hj => h j (by omega)), h n (by omega)]

theorem sumUpTo_change {n i : Nat} {f g : Nat → Nat} (hi : i < n)
    (h : ∀ j, j ≠ i → g j = f j) : sumUpTo n g + f i = sumUpTo n f + g i := by
  induction n with
  | zero => omega
  | succ n ih =>
    simp only [sumUpTo]
    by_cases hin : i = n
    · subst hin
      have : sumUpTo i g = sumUpTo i f := sumUpTo_congr (fun j hj => h j (by omega))
      omega
    · have := ih (by omega)
      have := h n (fun hn => hin hn.symm)
      omega

theorem sumUpTo_ge {n i : Nat} {f : Nat → Nat} (hi : i < n) : f i ≤ sumUpTo n f := by
  induction n with
  | zero => omega
  | succ n ih =>
    simp only [sumUpTo]
    by_cases hin : i = n
    · subst hin; omega
    · have := ih (by omega); omega

theorem sumUpTo_const {n b : Nat} {f : Nat → Nat} (h : ∀ j, j < n → f j = b) :
    sumUpTo n f = n * b := by
  induction n with
  | zero => simp [sumUpTo]
  | succ n ih =>
    simp only [sumUpTo]
    rw [ih (fun j hj => h j (by omega)), h n (by omega)]
    ring

theorem sumUpTo_le {n b : Nat} {f : Nat → Nat} (h : ∀ j, j < n → f j ≤ b) :
    sumUpTo n f ≤ n * b := by
  induction n with
  | zero => simp [sumUpTo]
  | succ n ih =>
    simp only [sumUpTo]
    have := ih (fun j hj => h j (by omega))
    have := h n (by omega)
    have : (n + 1) * b = n * b + b := by ring
    omega

section frame
variable (w : World) (fmt : Fmt) (total : Nat) (s : State) (i : Nat)

theorem taskStep_tasks_ne (j : Nat) (h : j ≠ i) :
    (taskStep w fmt total s i).tasks j = s.tasks j := by
  unfold taskStep; dsimp only
  split <;> simp [State.commit, Function.update_noteq h]

theorem taskStep_pc (h : (s.tasks i).pc < 11) :
    ((taskStep w fmt total s i).tasks i).pc = (s.tasks i).pc + 1 := by
  unfold taskStep; dsimp only
  split <;> simp_all [State.commit]
  omega

theorem taskStep_ident :
    ((taskStep w fmt total s i).tasks i).index = (s.tasks i).index ∧
    ((taskStep w fmt total s i).tasks i).host = (s.tasks i).host := by
  unfold taskStep; dsimp only
  split <;> simp [State.commit]

theorem taskStep_spawned :
    (taskStep w fmt total s i).spawned = s.spawned ∧
    (taskStep w fmt total s i).returned = s.returned := by
  unfold taskStep; dsimp only
  split <;> simp [State.commit]

theorem taskStep_results :
    (taskStep w fmt total s i).results =
      if (s.tasks i).pc = 3 then
        s.results.set (s.tasks i).index
          ⟨(s.tasks i).host, (s.tasks i).index, (s.tasks i).result, (s.tasks i).err,
            (s.tasks i).traceStartTime, (s.tasks i).traceEndTime, (s.tasks i).timedOut⟩
      else s.results := by
  unfold taskStep; dsimp only
  split <;> simp_all [State.commit]

theorem taskStep_completed :
    (taskStep w fmt total s i).completed =
      if (s.tasks i).pc = 6 then (s.tasks i).tmp + 1 else s.completed := by
  unfold taskStep; dsimp only
  split <;> simp_all [State.commit]

theorem taskStep_locked :
    (taskStep w fmt total s i).locked =
      if (s.tasks i).pc = 4 then true else if (s.tasks i).pc = 8 then false else s.locked := by
  unfold taskStep; dsimp only
  split <;> simp_all [State.commit]

theorem taskStep_wg :
    (taskStep w fmt total s i).wg = if (s.tasks i).pc = 10 then s.wg - 1 else s.wg := by
  unfold taskStep; dsimp only
  split <;> simp_all [State.commit]

theorem taskStep_tmp :
    ((taskStep w fmt total s i).tasks i).tmp =
      if (s.tasks i).pc = 5 then s.completed else (s.tasks i).tmp := by
  unfold taskStep; dsimp only
  split <;> simp_all [State.commit]

theorem taskStep_cur :
    ((taskStep w fmt total s i).tasks i).currentCompleted =
      if (s.tasks i).pc = 7 then s.completed else (s.tasks i).currentCompleted := by
  unfold taskStep; dsimp only
  split <;> simp_all [State.commit]

theorem taskStep_probe_at (h : (s.tasks i).pc = 1) :
    ((taskStep w fmt total s i).tasks i).result
        = (runTracerouteWithTimeout (w.probe i) fmt (s.tasks i).host twoMinutes).output ∧
      ((taskStep w fmt total s i).tasks i).err
        = (runTracerouteWithTimeout (w.probe i) fmt (s.tasks i).host twoMinutes).err ∧
      ((taskStep w fmt total s i).tasks i).timedOut
        = (runTracerouteWithTimeout (w.probe i) fmt (s.tasks i).host twoMinutes).timedOut := by
  unfold taskStep; dsimp only
  split <;> simp_all [State.commit]

theorem taskStep_probe_keep (h : (s.tasks i).pc ≠ 1) :
    ((taskStep w fmt total s i).tasks i).result = (s.tasks i).result ∧
      ((taskStep w fmt total s i).tasks i).err = (s.tasks i).err ∧
      ((taskStep w fmt total s i).tasks i).timedOut = (s.tasks i).timedOut := by
  unfold taskStep; dsimp only
  split <;> simp_all [State.commit]

theorem taskStep_times_keep (h : 3 ≤ (s.tasks i).pc) :
    ((taskStep w fmt total s i).tasks i).traceStartTime = (s.tasks i).traceStartTime ∧
      ((taskStep w fmt total s i).tasks i).traceEndTime = (s.tasks i).traceEndTime := by
  unfold taskStep; dsimp only
  split <;> simp_all [State.commit]

end frame

/-- A step of an enabled goroutine keeps the invariant. -/
theorem invariant_taskStep {w : World} {fmt : Fmt} {hostnames : List String} {s : State}
    (inv : Invariant w fmt hostnames s) {i : Nat} (hi : i < s.spawned)
    (hpc : (s.tasks i).pc < 11) (hlock : (s.tasks i).pc = 4 → s.locked = false) :
    Invariant w fmt hostnames (taskStep w fmt hostnames.length s i) := by
  have hne := taskStep_tasks_ne w fmt hostnames.length s i
  have hpc' := taskStep_pc w fmt hostnames.length s i hpc
  have hid' := taskStep_ident w fmt hostnames.length s i
  have hsp := (taskStep_spawned w fmt hostnames.length s i).1
  have hret := (taskStep_spawned w fmt hostnames.length s i).2
  have hres := taskStep_results w fmt hostnames.length s i
  have hcomp := taskStep_completed w fmt hostnames.length s i
  have hlk := taskStep_locked w fmt hostnames.length s i
  have hwg := taskStep_wg w fmt hostnames.length s i
  have htmp := taskStep_tmp w fmt hostnames.length s i
  have hcur := taskStep_cur w fmt hostnames.length s i
  have hidi := inv.ident i hi
  -- nobody else is in the critical section when goroutine i is about to enter or is inside
  have hexcl : ∀ j, j < s.spawned → j ≠ i → 4 ≤ (s.tasks i).pc → (s.tasks i).pc ≤ 8 →
      ¬ (5 ≤ (s.tasks j).pc ∧ (s.tasks j).pc ≤ 8) := by
    intro j hj hji h4 h8 hcs
    by_cases h : (s.tasks i).pc = 4
    · have hl := hlock h
      have : s.locked = true := inv.locked_iff.mpr ⟨j, hj, hcs⟩
      rw [hl] at this
      exact Bool.noConfusion this
    · exact hji (inv.mutex j i hj hi hcs ⟨by omega, h8⟩)
  have hcompleted : (taskStep w fmt hostnames.length s i).completed
      = if (s.tasks i).pc = 6 then s.completed + 1 else s.completed := by
    rw [hcomp]
    split_ifs with h
    · rw [inv.loaded i hi h]
    · rfl
  refine
    { spawned_le := ?_, results_len := ?_, ident := ?_, probed := ?_, stored := ?_, mutex := ?_,
      locked_iff := ?_, loaded := ?_, counted := ?_, wg_eq := ?_, cur_range := ?_,
      cur_inj := ?_, cur_fresh := ?_, returned_done := ?_ }
  · rw [hsp]; exact inv.spawned_le
  · rw [hres]
    split_ifs <;> simp [inv.results_len]
  · intro j hj
    rw [hsp] at hj
    by_cases hji : j = i
    · subst hji
      rw [hid'.1, hid'.2, hpc']
      exact ⟨hidi.1, hidi.2.1, by omega⟩
    · rw [hne j hji]
      exact inv.ident j hj
  · intro j hj h2
    rw [hsp] at hj
    by_cases hji : j = i
    · subst hji
      rw [hpc'] at h2
      by_cases h1 : (s.tasks j).pc = 1
      · have := taskStep_probe_at w fmt hostnames.length s j h1
        rw [hidi.2.1] at this
        exact this
      · have := taskStep_probe_keep w fmt hostnames.length s j h1
        rw [this.1, this.2.1, this.2.2]
        exact inv.probed j hj (by omega)
    · rw [hne j hji] at h2 ⊢
      exact inv.probed j hj h2
  · intro j hj h4
    rw [hsp] at hj
    by_cases hji : j = i
    · subst hji
      rw [hpc'] at h4
      have hk := taskStep_probe_keep w fmt hostnames.length s j (by omega)
      have ht := taskStep_times_keep w fmt hostnames.length s j (by omega)
      rw [hk.1, hk.2.1, hk.2.2, ht.1, ht.2, hres]
      by_cases h3 : (s.tasks j).pc = 3
      · rw [if_pos h3, hidi.1, hidi.2.1, List.getElem?_set]
        have : j < s.results.length := by
          rw [inv.results_len]; exact lt_of_lt_of_le hj inv.spawned_le
        simp [this]
      · rw [if_neg h3]
        exact inv.stored j hj (by omega)
    · rw [hne j hji] at h4 ⊢
      rw [hres]
      split_ifs with h3
      · rw [hidi.1, List.getElem?_set, if_neg (fun h => hji h.symm)]
        exact inv.stored j hj h4
      · exact inv.stored j hj h4
  · intro a b ha hb hca hcb
    rw [hsp] at ha hb
    by_cases hai : a = i
    · by_cases hbi : b = i
      · rw [hai, hbi]
      · exfalso
        subst hai
        rw [hpc'] at hca
        rw [hne b hbi] at hcb
        exact hexcl b hb hbi (by omega) (by omega) hcb
    · by_cases hbi : b = i
      · exfalso
        subst hbi
        rw [hpc'] at hcb
        rw [hne a hai] at hca
        exact hexcl a ha hai (by omega) (by omega) hca
      · rw [hne a hai] at hca
        rw [hne b hbi] at hcb
        exact inv.mutex a b ha hb hca hcb
  · rw [hlk, hsp]
    constructor
    · intro hl
      by_cases h4 : (s.tasks i).pc = 4
      · exact ⟨i, hi, by rw [hpc']; omega⟩
      · rw [if_neg h4] at hl
        by_cases h8 : (s.tasks i).pc = 8
        · rw [if_pos h8] at hl
          exact Bool.noConfusion hl
        · rw [if_neg h8] at hl
          obtain ⟨j, hj, hcs⟩ := inv.locked_iff.mp hl
          by_cases hji : j = i
          · subst hji
            exact ⟨j, hj, by rw [hpc']; omega⟩
          · exact ⟨j, hj, by rw [hne j hji]; exact hcs⟩
    · rintro ⟨j, hj, hcs⟩
      by_cases h4 : (s.tasks i).pc = 4
      · rw [if_pos h4]
      · rw [if_neg h4]
        by_cases hji : j = i
        · subst hji
          rw [hpc'] at hcs
          rw [if_neg (by omega)]
          exact inv.locked_iff.mpr ⟨j, hj, by omega⟩
        · rw [hne j hji] at hcs
          by_cases h8 : (s.tasks i).pc = 8
          · exact absurd hcs (hexcl j hj hji (by omega) (by omega))
          · rw [if_neg h8]
            exact inv.locked_iff.mpr ⟨j, hj, hcs⟩
  · intro j hj h6
    rw [hsp] at hj
    by_cases hji : j = i
    · subst hji
      rw [hpc'] at h6
      rw [htmp, hcompleted, if_pos (by omega), if_neg (by omega)]
    · rw [hne j hji] at h6 ⊢
      rw [hcompleted, inv.loaded j hj h6]
      have : (s.tasks i).pc ≠ 6 := fun h =>
        hexcl j hj hji (by omega) (by omega) ⟨by omega, by omega⟩
      rw [if_neg this]
  · rw [hcompleted, hsp, inv.counted]
    have := @sumUpTo_change s.spawned i
      (fun j => if 7 ≤ (s.tasks j).pc then 1 else 0)
      (fun j => if 7 ≤ ((taskStep w fmt hostnames.length s i).tasks j).pc
        then 1 else 0) hi (fun j hj => by simp only [hne j hj])
    simp only [hpc'] at this
    split_ifs at this ⊢ <;> omega
  · rw [hwg, hsp, inv.wg_eq]
    have := @sumUpTo_change s.spawned i
      (fun j => if (s.tasks j).pc < 11 then 1 else 0)
      (fun j => if ((taskStep w fmt hostnames.length s i).tasks j).pc < 11
        then 1 else 0) hi (fun j hj => by simp only [hne j hj])
    simp only [hpc'] at this
    split_ifs at this ⊢ <;> omega
  · intro j hj h8
    rw [hsp] at hj
    rw [hcompleted]
    by_cases hji : j = i
    · subst hji
      rw [hpc'] at h8
      rw [hcur]
      by_cases h7 : (s.tasks j).pc = 7
      · rw [if_pos h7, if_neg (by omega)]
        have := @sumUpTo_ge s.spawned j (fun k => if 7 ≤ (s.tasks k).pc then 1 else 0) hj
        simp only [h7, le_refl, if_true] at this
        rw [← inv.counted] at this
        exact ⟨this, le_refl _⟩
      · rw [if_neg h7, if_neg (by omega)]
        exact inv.cur_range j hj (by omega)
    · rw [hne j hji] at h8 ⊢
      have := inv.cur_range j hj h8
      split_ifs <;> omega
  · intro a b ha hb h8a h8b hab
    rw [hsp] at ha hb
    by_cases hai : a = i
    · by_cases hbi : b = i
      · rw [hai, hbi]
      · exfalso
        subst hai
        rw [hpc'] at h8a
        rw [hne b hbi] at h8b hab
        rw [hcur] at hab
        by_cases h7 : (s.tasks a).pc = 7
        · rw [if_pos h7] at hab
          have := inv.cur_fresh a b ha hb h7 h8b
          omega
        · rw [if_neg h7] at hab
          exact hbi (inv.cur_inj a b ha hb (by omega) h8b hab).symm
    · by_cases hbi : b = i
      · exfalso
        subst hbi
        rw [hpc'] at h8b
        rw [hne a hai] at h8a hab
        rw [hcur] at hab
        by_cases h7 : (s.tasks b).pc = 7
        · rw [if_pos h7] at hab
          have := inv.cur_fresh b a hb ha h7 h8a
          omega
        · rw [if_neg h7] at hab
          exact hai (inv.cur_inj a b ha hb h8a (by omega) hab)
      · rw [hne a hai] at h8a hab
        rw [hne b hbi] at h8b hab
        exact inv.cur_inj a b ha hb h8a h8b hab
  · intro a b ha hb h7 h8
    rw [hsp] at ha hb
    rw [hcompleted]
    by_cases hai : a = i
    · subst hai
      rw [hpc'] at h7
      have hbi : b ≠ a := by
        intro h; subst h; omega
      rw [hne b hbi] at h8 ⊢
      rw [if_pos (by omega)]
      have := inv.cur_range b hb h8
      omega
    · rw [hne a hai] at h7
      have hi6 : (s.tasks i).pc ≠ 6 := fun h =>
        hexcl a ha hai (by omega) (by omega) ⟨by omega, by omega⟩
      rw [if_neg hi6]
      by_cases hbi : b = i
      · subst hbi
        rw [hpc'] at h8
        have hb7 : (s.tasks b).pc ≠ 7 := fun h =>
          hexcl a ha hai (by omega) (by omega) ⟨by omega, by omega⟩
        rw [hcur, if_neg hb7]
        exact inv.cur_fresh a b ha hb h7 (by omega)
      · rw [hne b hbi] at h8 ⊢
        exact inv.cur_fresh a b ha hb h7 h8
  · intro hr
    rw [hret] at hr
    have := (inv.returned_done hr).2 i hi
    omega

/-- The state before any step satisfies the invariant. -/
theorem invariant_init (w : World) (fmt : Fmt) (hostnames : List String) :
    Invariant w fmt hostnames (init w hostnames) := by
  refine
    { spawned_le := ?_, results_len := ?_, ident := ?_, probed := ?_, stored := ?_, mutex := ?_,
      locked_iff := ?_, loaded := ?_, counted := ?_, wg_eq := ?_, cur_range := ?_,
      cur_inj := ?_, cur_fresh := ?_, returned_done := ?_ }
  all_goals simp [init, sumUpTo]

/-- An iteration of the launching loop keeps the invariant. -/
theorem invariant_spawn {w : World} {fmt : Fmt} {hostnames : List String} {s : State}
    (inv : Invariant w fmt hostnames s) (h : s.spawned < hostnames.length) :
    Invariant w fmt hostnames (mainStep w fmt hostnames s) := by
  have hs : mainStep w fmt hostnames s =
      { s with
        wg := s.wg + 1
        tasks := Function.update s.tasks s.spawned
          (Task.start s.spawned (hostnames.getD s.spawned ""))
        spawned := s.spawned + 1
        steps := s.steps + 1 } := by
    unfold mainStep
    rw [if_pos h]
  rw [hs]
  have hold : ∀ j, j < s.spawned →
      Function.update s.tasks s.spawned (Task.start s.spawned (hostnames.getD s.spawned "")) j
        = s.tasks j := fun j hj => Function.update_noteq (by omega) _ _
  have hnew : Function.update s.tasks s.spawned
      (Task.start s.spawned (hostnames.getD s.spawned "")) s.spawned
        = Task.start s.spawned (hostnames.getD s.spawned "") := Function.update_same _ _ _
  have hcase : ∀ j, j < s.spawned + 1 → j < s.spawned ∨ j = s.spawned := fun j hj => by omega
  refine
    { spawned_le := ?_, results_len := ?_, ident := ?_, probed := ?_, stored := ?_, mutex := ?_,
      locked_iff := ?_, loaded := ?_, counted := ?_, wg_eq := ?_, cur_range := ?_,
      cur_inj := ?_, cur_fresh := ?_, returned_done := ?_ }
  · exact h
  · exact inv.results_len
  · intro j hj
    rcases hcase j hj with hj | hj
    · simp only [hold j hj]; exact inv.ident j hj
    · subst hj; simp only [hnew]; simp [Task.start]
  · intro j hj
    rcases hcase j hj with hj | hj
    · simp only [hold j hj]; exact inv.probed j hj
    · subst hj; simp only [hnew]; simp [Task.start]
  · intro j hj
    rcases hcase j hj with hj | hj
    · simp only [hold j hj]; exact inv.stored j hj
    · subst hj; simp only [hnew]; simp [Task.start]
  · intro a b ha hb
    rcases hcase a ha with ha | ha
    · rcases hcase b hb with hb | hb
      · simp only [hold a ha, hold b hb]; exact inv.mutex a b ha hb
      · subst hb; simp only [hnew]; simp [Task.start]
    · subst ha; simp only [hnew]; simp [Task.start]
  · constructor
    · intro hl
      obtain ⟨j, hj, hcs⟩ := inv.locked_iff.mp hl
      exact ⟨j, by show j < s.spawned + 1; omega, by simp only [hold j hj]; exact hcs⟩
    · rintro ⟨j, hj, hcs⟩
      rcases hcase j hj with hj | hj
      · simp only [hold j hj] at hcs
        exact inv.locked_iff.mpr ⟨j, hj, hcs⟩
      · subst hj
        simp only [hnew] at hcs
        simp [Task.start] at hcs
  · intro j hj
    rcases hcase j hj with hj | hj
    · simp only [hold j hj]; exact inv.loaded j hj
    · subst hj; simp only [hnew]; simp [Task.start]
  · show s.completed = sumUpTo (s.spawned + 1) _
    simp only [sumUpTo, hnew]
    have hc : sumUpTo s.spawned (fun i => if 7 ≤ (Function.update s.tasks s.spawned
        (Task.start s.spawned (hostnames.getD s.spawned "")) i).pc then 1 else 0)
        = sumUpTo s.spawned (fun i => if 7 ≤ (s.tasks i).pc then 1 else 0) :=
      sumUpTo_congr (fun j hj => by simp only [hold j hj])
    rw [hc, ← inv.counted]
    simp [Task.start]
  · show s.wg + 1 = sumUpTo (s.spawned + 1) _
    simp only [sumUpTo, hnew]
    have hc : sumUpTo s.spawned (fun i => if (Function.update s.tasks s.spawned
        (Task.start s.spawned (hostnames.getD s.spawned "")) i).pc < 11 then 1 else 0)
        = sumUpTo s.spawned (fun i => if (s.tasks i).pc < 11 then 1 else 0) :=
      sumUpTo_congr (fun j hj => by simp only [hold j hj])
    rw [hc, ← inv.wg_eq]
    simp [Task.start]
  · intro j hj
    rcases hcase j hj with hj | hj
    · simp only [hold j hj]; exact inv.cur_range j hj
    · subst hj; simp only [hnew]; simp [Task.start]
  · intro a b ha hb
    rcases hcase a ha with ha | ha
    · rcases hcase b hb with hb | hb
      · simp only [hold a ha, hold b hb]; exact inv.cur_inj a b ha hb
      · subst hb; simp only [hnew]; simp [Task.start]
    · subst ha; simp only [hnew]; simp [Task.start]
  · intro a b ha hb
    rcases hcase a ha with ha | ha
    · rcases hcase b hb with hb | hb
      · simp only [hold a ha, hold b hb]; exact inv.cur_fresh a b ha hb
      · subst hb; simp only [hnew]; simp [Task.start]
    · subst ha; simp only [hnew]; simp [Task.start]
  · intro hr
    have := (inv.returned_done hr).1
    omega

/-- The return from `wg.Wait()` keeps the invariant: it happens only when every
goroutine has finished. -/
theorem invariant_wait {w : World} {fmt : Fmt} {hostnames : List String} {s : State}
    (inv : Invariant w fmt hostnames s) (h : ¬ s.spawned < hostnames.length)
    (hwg : s.wg = 0) : Invariant w fmt hostnames (mainStep w fmt hostnames s) := by
  have hs : mainStep w fmt hostnames s =
      { s with
        returned := true
        stdout := s.stdout ++
          ["\n🎉 All traceroutes completed in " ++ fmt.elapsed s.startTime (w.now s.steps) ++ "\n"]
        steps := s.steps + 1 } := by
    unfold mainStep
    rw [if_neg h]
  rw [hs]
  refine
    { spawned_le := inv.spawned_le, results_len := inv.results_len, ident := inv.ident,
      probed := inv.probed, stored := inv.stored, mutex := inv.mutex,
      locked_iff := inv.locked_iff, loaded := inv.loaded, counted := inv.counted,
      wg_eq := inv.wg_eq, cur_range := inv.cur_range, cur_inj := inv.cur_inj,
      cur_fresh := inv.cur_fresh, returned_done := ?_ }
  intro _
  refine ⟨le_antisymm inv.spawned_le (not_lt.mp h), ?_⟩
  intro i hi
  have hsum := inv.wg_eq
  rw [hwg] at hsum
  have := @sumUpTo_ge s.spawned i (fun j => if (s.tasks j).pc < 11 then 1 else 0) hi
  rw [← hsum] at this
  have hle := (inv.ident i hi).2.2
  by_cases hlt : (s.tasks i).pc < 11
  · simp [hlt] at this
  · show (s.tasks i).pc = 11
    omega

/-- What it means for an action to be enabled. -/
theorem mem_enabled {hostnames : List String} {s : State} {a : Action} :
    a ∈ enabled hostnames s ↔
      (a = Action.caller ∧ mainEnabled hostnames s = true) ∨
      (∃ i, a = Action.task i ∧ i < s.spawned ∧ taskEnabled s i = true) := by
  unfold enabled
  simp only [List.mem_append, List.mem_map, List.mem_filter, List.mem_range]
  constructor
  · rintro (h | ⟨i, ⟨hi, he⟩, rfl⟩)
    · left
      split_ifs at h with hm
      · exact ⟨by simpa using h, hm⟩
      · simp at h
    · exact Or.inr ⟨i, rfl, hi, he⟩
  · rintro (⟨rfl, hm⟩ | ⟨i, rfl, hi, he⟩)
    · left; simp [hm]
    · exact Or.inr ⟨i, ⟨hi, he⟩, rfl⟩

/-- Every enabled action keeps the invariant. -/
theorem invariant_step {w : World} {fmt : Fmt} {hostnames : List String} {s : State}
    (inv : Invariant w fmt hostnames s) {a : Action} (ha : a ∈ enabled hostnames s) :
    Invariant w fmt hostnames (step w fmt hostnames s a) := by
  rcases mem_enabled.mp ha with ⟨rfl, hm⟩ | ⟨i, rfl, hi, he⟩
  · show Invariant w fmt hostnames (mainStep w fmt hostnames s)
    by_cases h : s.spawned < hostnames.length
    · exact invariant_spawn inv h
    · refine invariant_wait inv h ?_
      simp [mainEnabled, h] at hm
      exact hm.2
  · show Invariant w fmt hostnames (taskStep w fmt hostnames.length s i)
    simp only [taskEnabled, Bool.and_eq_true, Bool.or_eq_true, decide_eq_true_eq,
      Bool.not_eq_true'] at he
    refine invariant_taskStep inv hi he.1.2 ?_
    intro h4
    rcases he.2 with h | h
    · exact absurd h4 h
    · exact h

/-- The action the scheduler picks is one of the enabled ones. -/
theorem pick_mem {α : Type} (a : α) (as : List α) (choice : Nat) :
    (a :: as).getD (choice % (as.length + 1)) a ∈ a :: as := by
  have h : choice % (as.length + 1) < (a :: as).length := by
    simp only [List.length_cons]
    exact Nat.mod_lt _ (Nat.succ_pos _)
  rw [List.getD_eq_getElem _ _ h]
  exact List.getElem_mem _

/-- One step of the program is either no step at all, with nothing enabled, or
the step of an enabled action. -/
theorem next_cases (w : World) (fmt : Fmt) (hostnames : List String) (s : State)
    (choice : Nat) :
    (enabled hostnames s = [] ∧ next w fmt hostnames s choice = s) ∨
    (∃ a, a ∈ enabled hostnames s ∧ next w fmt hostnames s choice = step w fmt hostnames s a) := by
  unfold next
  cases h : enabled hostnames s with
  | nil => exact Or.inl ⟨rfl, rfl⟩
  | cons a as => exact Or.inr ⟨_, pick_mem a as choice, rfl⟩

/-- Every step of the program keeps the invariant. -/
theorem invariant_next {w : World} {fmt : Fmt} {hostnames : List String} {s : State}
    (inv : Invariant w fmt hostnames s) (choice : Nat) :
    Invariant w fmt hostnames (next w fmt hostnames s choice) := by
  rcases next_cases w fmt hostnames s choice with ⟨_, h⟩ | ⟨a, ha, h⟩
  · rw [h]; exact inv
  · rw [h]; exact invariant_step inv ha

/-- Every state of every run satisfies the invariant. -/
theorem invariant_run (w : World) (fmt : Fmt) (hostnames : List String) (sched : Nat → Nat)
    (k : Nat) : Invariant w fmt hostnames (run w fmt hostnames sched k) := by
  induction k with
  | zero => exact invariant_init w fmt hostnames
  | succ k ih => exact invariant_next ih (sched k)

/-! ## Termination of every run -/

/-- Every enabled action is one more step taken. -/
theorem stepsTaken_step {w : World} {fmt : Fmt} {hostnames : List String} {s : State}
    (inv : Invariant w fmt hostnames s) {a : Action} (ha : a ∈ enabled hostnames s) :
    stepsTaken (step w fmt hostnames s a) = stepsTaken s + 1 := by
  rcases mem_enabled.mp ha with ⟨rfl, hm⟩ | ⟨i, rfl, hi, he⟩
  · show stepsTaken (mainStep w fmt hostnames s) = stepsTaken s + 1
    by_cases h : s.spawned < hostnames.length
    · have hr : s.returned = false := by
        cases hr : s.returned with
        | false => rfl
        | true => have := (inv.returned_done hr).1; omega
      unfold mainStep
      rw [if_pos h]
      simp only [stepsTaken, sumUpTo, Function.update_same, hr]
      have hc : sumUpTo s.spawned (fun i => (Function.update s.tasks s.spawned
          (Task.start s.spawned (hostnames.getD s.spawned "")) i).pc)
          = sumUpTo s.spawned (fun i => (s.tasks i).pc) :=
        sumUpTo_congr (fun j hj => by rw [Function.update_noteq (by omega)])
      rw [hc]
      simp [Task.start]
      omega
    · simp [mainEnabled, h] at hm
      unfold mainStep
      rw [if_neg h]
      simp [stepsTaken, hm.1]
  · show stepsTaken (taskStep w fmt hostnames.length s i) = stepsTaken s + 1
    simp only [taskEnabled, Bool.and_eq_true, Bool.or_eq_true, decide_eq_true_eq,
      Bool.not_eq_true'] at he
    have hne := taskStep_tasks_ne w fmt hostnames.length s i
    have hpc := taskStep_pc w fmt hostnames.length s i he.1.2
    have hsp := taskStep_spawned w fmt hostnames.length s i
    have := @sumUpTo_change s.spawned i (fun j => (s.tasks j).pc)
      (fun j => ((taskStep w fmt hostnames.length s i).tasks j).pc) hi
      (fun j hj => by simp only [hne j hj])
    simp only [hpc] at this
    simp only [stepsTaken, hsp.1, hsp.2]
    omega

/-- No deadlock: as long as the caller has not returned, some action is enabled. -/
theorem enabled_ne_nil {w : World} {fmt : Fmt} {hostnames : List String} {s : State}
    (inv : Invariant w fmt hostnames s) (hr : s.returned = false) :
    enabled hostnames s ≠ [] := by
  by_cases hm : mainEnabled hostnames s = true
  · intro h
    have : Action.caller ∈ enabled hostnames s := mem_enabled.mpr (Or.inl ⟨rfl, hm⟩)
    rw [h] at this
    simp at this
  · -- the caller waits: some goroutine has not finished
    simp only [mainEnabled, Bool.or_eq_true, decide_eq_true_eq, Bool.and_eq_true,
      Bool.not_eq_true', not_or, not_and] at hm
    have hwg : s.wg ≠ 0 := hm.2 hr
    have hex : ∃ i, i < s.spawned ∧ (s.tasks i).pc < 11 := by
      by_contra hno
      push_neg at hno
      have : sumUpTo s.spawned (fun i => if (s.tasks i).pc < 11 then 1 else 0) = s.spawned * 0 :=
        sumUpTo_const (fun j hj => by simp [Nat.not_lt.mpr (hno j hj)])
      rw [← inv.wg_eq] at this
      omega
    obtain ⟨i, hi, hlt⟩ := hex
    have hen : ∃ j, j < s.spawned ∧ taskEnabled s j = true := by
      cases hl : s.locked with
      | false =>
        exact ⟨i, hi, by simp [taskEnabled, hi, hlt, hl]⟩
      | true =>
        obtain ⟨j, hj, h5, h8⟩ := inv.locked_iff.mp hl
        refine ⟨j, hj, ?_⟩
        have h4 : (s.tasks j).pc ≠ 4 := by omega
        have h11 : (s.tasks j).pc < 11 := by omega
        simp [taskEnabled, hj, h4, h11]
    obtain ⟨j, hj, he⟩ := hen
    intro h
    have : Action.task j ∈ enabled hostnames s := mem_enabled.mpr (Or.inr ⟨j, rfl, hj, he⟩)
    rw [h] at this
    simp at this

/-- Before the return at most `12 * N` steps have been taken. -/
theorem stepsTaken_le {w : World} {fmt : Fmt} {hostnames : List String} {s : State}
    (inv : Invariant w fmt hostnames s) (hr : s.returned = false) :
    stepsTaken s ≤ 12 * hostnames.length := by
  have h1 := inv.spawned_le
  have h2 : sumUpTo s.spawned (fun i => (s.tasks i).pc) ≤ s.spawned * 11 :=
    sumUpTo_le (fun j hj => (inv.ident j hj).2.2)
  simp only [stepsTaken, hr]
  simp
  omega

/-- Once the caller has returned it stays returned. -/
theorem returned_next (w : World) (fmt : Fmt) (hostnames : List String) (s : State)
    (choice : Nat) (hr : s.returned = true) :
    (next w fmt hostnames s choice).returned = true := by
  rcases next_cases w fmt hostnames s choice with ⟨_, h⟩ | ⟨a, _, h⟩
  · rw [h]; exact hr
  · rw [h]
    cases a with
    | caller =>
      show (mainStep w fmt hostnames s).returned = true
      unfold mainStep
      split_ifs <;> simp [hr]
    | task i =>
      show (taskStep w fmt hostnames.length s i).returned = true
      rw [(taskStep_spawned w fmt hostnames.length s i).2]
      exact hr

/-- After `k` steps of a run the caller has returned, or exactly `k` steps
have been taken. -/
theorem run_progress (w : World) (fmt : Fmt) (hostnames : List String) (sched : Nat → Nat)
    (k : Nat) :
    (run w fmt hostnames sched k).returned = true ∨
      stepsTaken (run w fmt hostnames sched k) = k := by
  induction k with
  | zero => right; simp [run, init, stepsTaken, sumUpTo]
  | succ k ih =>
    show (next w fmt hostnames (run w fmt hostnames sched k) (sched k)).returned = true ∨
      stepsTaken (next w fmt hostnames (run w fmt hostnames sched k) (sched k)) = k + 1
    have inv := invariant_run w fmt hostnames sched k
    cases hr : (run w fmt hostnames sched k).returned with
    | true => exact Or.inl (returned_next w fmt hostnames _ _ hr)
    | false =>
      right
      rcases ih with h | h
      · rw [hr] at h; exact Bool.noConfusion h
      · rcases next_cases w fmt hostnames (run w fmt hostnames sched k) (sched k) with
          ⟨hnil, _⟩ | ⟨a, ha, hn⟩
        · exact absurd hnil (enabled_ne_nil inv hr)
        · rw [hn, stepsTaken_step inv ha, h]

/-- Termination: whatever the scheduler does, after `fuel` steps the caller has
returned from `wg.Wait()`. -/
theorem run_returned (w : World) (fmt : Fmt) (hostnames : List String) (sched : Nat → Nat) :
    (run w fmt hostnames sched (fuel hostnames)).returned = true := by
  cases hr : (run w fmt hostnames sched (fuel hostnames)).returned with
  | true => rfl
  | false =>
    exfalso
    have inv := invariant_run w fmt hostnames sched (fuel hostnames)
    have hle := stepsTaken_le inv hr
    rcases run_progress w fmt hostnames sched (fuel hostnames) with h | h
    · rw [hr] at h; exact Bool.noConfusion h
    · rw [h] at hle
      unfold fuel at hle
      omega

/-- The function returns a results slice under every scheduler. -/
theorem runConcurrentTraceroutes_eq (w : World) (fmt : Fmt) (hostnames : List String)
    (sched : Nat → Nat) :
    runConcurrentTraceroutes w fmt hostnames sched
      = some (run w fmt hostnames sched (fuel hostnames)).results := by
  unfold runConcurrentTraceroutes
  simp only [run_returned w fmt hostnames sched, if_true]

/-! ## The state in which the caller returns -/

/-- In the state in which the caller returns, slot `i` of the results slice
holds what goroutine `i` stored: its host, its index, the outcome of its probe
and its two clock readings. -/
theorem final_results (w : World) (fmt : Fmt) (hostnames : List String) (sched : Nat → Nat)
    (i : Nat) (hi : i < hostnames.length) :
    (run w fmt hostnames sched (fuel hostnames)).results[i]? =
      some ⟨hostnames.getD i "", i,
        (runTracerouteWithTimeout (w.probe i) fmt (hostnames.getD i "") twoMinutes).output,
        (runTracerouteWithTimeout (w.probe i) fmt (hostnames.getD i "") twoMinutes).err,
        ((run w fmt hostnames sched (fuel hostnames)).tasks i).traceStartTime,
        ((run w fmt hostnames sched (fuel hostnames)).tasks i).traceEndTime,
        (runTracerouteWithTimeout (w.probe i) fmt (hostnames.getD i "") twoMinutes).timedOut⟩ := by
  have inv := invariant_run w fmt hostnames sched (fuel hostnames)
  obtain ⟨hsp, hdone⟩ := inv.returned_done (run_returned w fmt hostnames sched)
  have hi' : i < (run w fmt hostnames sched (fuel hostnames)).spawned := by rw [hsp]; exact hi
  have hpc := hdone i hi'
  have hp := inv.probed i hi' (by omega)
  have hs := inv.stored i hi' (by omega)
  rw [hs, hp.1, hp.2.1, hp.2.2]

/-- The five schedule-independent fields of the returned slice. -/
theorem final_fields (w : World) (fmt : Fmt) (hostnames : List String) (sched : Nat → Nat) :
    (run w fmt hostnames sched (fuel hostnames)).results.map
        (fun r => (r.Hostname, r.Index, r.Result, r.Error, r.TimedOut)) =
      hostnames.enum.map (fun p =>
        (p.2, p.1, (runTracerouteWithTimeout (w.probe p.1) fmt p.2 twoMinutes).output,
          (runTracerouteWithTimeout (w.probe p.1) fmt p.2 twoMinutes).err,
          (runTracerouteWithTimeout (w.probe p.1) fmt p.2 twoMinutes).timedOut)) := by
  have inv := invariant_run w fmt hostnames sched (fuel hostnames)
  apply List.ext_getElem?
  intro n
  rw [List.getElem?_map, List.getElem?_map, List.getElem?_enum]
  by_cases hn : n < hostnames.length
  · rw [final_results w fmt hostnames sched n hn, List.getElem?_eq_getElem hn,
      List.getD_eq_getElem _ _ hn]
    rfl
  · have h1 : (run w fmt hostnames sched (fuel hostnames)).results[n]? = none := by
      apply List.getElem?_eq_none
      rw [inv.results_len]; omega
    have h2 : hostnames[n]? = none := List.getElem?_eq_none (by omega)
    rw [h1, h2]
    rfl

/-- How the shared counter moves in one step of the program. -/
theorem completed_next {w : World} {fmt : Fmt} {hostnames : List String} {s : State}
    (inv : Invariant w fmt hostnames s) (choice : Nat) :
    s.completed ≤ (next w fmt hostnames s choice).completed ∧
      (next w fmt hostnames s choice).completed ≤ s.completed + 1 := by
  rcases next_cases w fmt hostnames s choice with ⟨_, h⟩ | ⟨a, ha, h⟩
  · rw [h]; omega
  · rw [h]
    rcases mem_enabled.mp ha with ⟨rfl, _⟩ | ⟨i, rfl, hi, _⟩
    · show s.completed ≤ (mainStep w fmt hostnames s).completed ∧
        (mainStep w fmt hostnames s).completed ≤ s.completed + 1
      unfold mainStep
      split_ifs <;> simp
    · show s.completed ≤ (taskStep w fmt hostnames.length s i).completed ∧
        (taskStep w fmt hostnames.length s i).completed ≤ s.completed + 1
      rw [taskStep_completed]
      split_ifs with h6
      · rw [inv.loaded i hi h6]; omega
      · omega

/-- The progress numbers read by the goroutines of a finished run are a
rearrangement of 1, ..., N. -/
theorem final_progress_numbers (w : World) (fmt : Fmt) (hostnames : List String)
    (sched : Nat → Nat) :
    ((List.range hostnames.length).map fun i =>
        ((run w fmt hostnames sched (fuel hostnames)).tasks i).currentCompleted).Perm
      (List.range' 1 hostnames.length) := by
  have inv := invariant_run w fmt hostnames sched (fuel hostnames)
  obtain ⟨hsp, hdone⟩ := inv.returned_done (run_returned w fmt hostnames sched)
  have hcount : (run w fmt hostnames sched (fuel hostnames)).completed = hostnames.length := by
    rw [inv.counted]
    have := @sumUpTo_const (run w fmt hostnames sched (fuel hostnames)).spawned 1
      (fun i => if 7 ≤ ((run w fmt hostnames sched (fuel hostnames)).tasks i).pc then 1 else 0)
      (fun j hj => by simp [hdone j hj])
    rw [this, hsp]; simp
  apply List.Subperm.perm_of_length_le
  · apply List.Nodup.subperm
    · apply List.Nodup.map_on _ (List.nodup_range _)
      intro a ha b hb hab
      rw [List.mem_range, ← hsp] at ha hb
      exact inv.cur_inj a b ha hb (by rw [hdone a ha]; omega) (by rw [hdone b hb]; omega) hab
    · intro v hv
      obtain ⟨i, hi, rfl⟩ := List.mem_map.mp hv
      rw [List.mem_range, ← hsp] at hi
      have := inv.cur_range i hi (by rw [hdone i hi]; omega)
      rw [hcount] at this
      rw [List.mem_range'_1]
      omega
  · simp

/-! ## The claims -/

/-- The hostnames of the returned slice are the input hostnames, in order. -/
theorem final_hostnames (w : World) (fmt : Fmt) (hostnames : List String) (sched : Nat → Nat) :
    (run w fmt hostnames sched (fuel hostnames)).results.map (fun r => r.Hostname)
      = hostnames := by
  have h := congrArg (List.map Prod.fst) (final_fields w fmt hostnames sched)
  simp only [List.map_map] at h
  have h2 : (hostnames.enum.map fun p => p.2) = hostnames := List.enum_map_snd hostnames
  calc (run w fmt hostnames sched (fuel hostnames)).results.map (fun r => r.Hostname)
      = hostnames.enum.map (fun p => p.2) := h
    _ = hostnames := h2

/-- Every entry of the returned slice has the shape of a probe outcome. -/
theorem final_sound (w : World) (fmt : Fmt) (hostnames : List String) (sched : Nat → Nat)
    (r : TracerouteResult) (hr : r ∈ (run w fmt hostnames sched (fuel hostnames)).results) :
    (r.TimedOut = true → r.Error ≠ none) ∧ (r.Error ≠ none → r.Result = "") := by
  have hm : (r.Hostname, r.Index, r.Result, r.Error, r.TimedOut) ∈
      (run w fmt hostnames sched (fuel hostnames)).results.map
        (fun r => (r.Hostname, r.Index, r.Result, r.Error, r.TimedOut)) :=
    List.mem_map.mpr ⟨r, hr, rfl⟩
  rw [final_fields] at hm
  obtain ⟨p, _, hp⟩ := List.mem_map.mp hm
  simp only [Prod.mk.injEq] at hp
  obtain ⟨_, _, h1, h2, h3⟩ := hp
  rw [← h1, ← h2, ← h3]
  exact probe_sound (w.probe p.1) fmt p.2 twoMinutes

set_option maxRecDepth 100000

/-- C1, as stated, fails: the entries of the returned slice carry `StartTime`
and `EndTime`, which are clock readings taken by each goroutine, so two
schedules over the same probe outcomes return different slices. For
two targets, the scheduler that always picks the first enabled action and the
round-robin scheduler give different timestamps. -/
theorem runConcurrentTraceroutes_timestamps_differ :
    runConcurrentTraceroutes tickingWorld demoFmt ["a.example", "b.example"] (fun _ => 0)
      = some [⟨"a.example", 0, "hops to a.example", none, 3, 5, false⟩,
              ⟨"b.example", 1, "hops to b.example", none, 14, 16, false⟩] ∧
    runConcurrentTraceroutes tickingWorld demoFmt ["a.example", "b.example"] (fun k => k)
      = some [⟨"a.example", 0, "hops to a.example", none, 2, 7, false⟩,
              ⟨"b.example", 1, "hops to b.example", none, 4, 8, false⟩] ∧
    runConcurrentTraceroutes tickingWorld demoFmt ["a.example", "b.example"] (fun _ => 0)
      ≠ runConcurrentTraceroutes tickingWorld demoFmt ["a.example", "b.example"] (fun k => k) := by
  decide

/-- C1, amended: for every assignment of probe outcomes to targets (`w.probe`)
and every scheduler, hence every order in which the goroutines finish,
`runConcurrentTraceroutes` returns a slice of length `len(hostnames)` whose
entry `i` has `Hostname = hostnames[i]`, `Index = i` and the `Result`, `Error`
and `TimedOut` of the probe run against `hostnames[i]`; in these five fields
the returned slice is the same for every completion order. -/
theorem runConcurrentTraceroutes_index_stable (w : World) (fmt : Fmt)
    (hostnames : List String) (sched : Nat → Nat) :
    ∃ results, runConcurrentTraceroutes w fmt hostnames sched = some results ∧
      results.length = hostnames.length ∧
      results.map (fun r => (r.Hostname, r.Index, r.Result, r.Error, r.TimedOut)) =
        hostnames.enum.map (fun p =>
          (p.2, p.1, (runTracerouteWithTimeout (w.probe p.1) fmt p.2 twoMinutes).output,
            (runTracerouteWithTimeout (w.probe p.1) fmt p.2 twoMinutes).err,
            (runTracerouteWithTimeout (w.probe p.1) fmt p.2 twoMinutes).timedOut)) ∧
      ∀ other : Nat → Nat, ∃ results', runConcurrentTraceroutes w fmt hostnames other
          = some results' ∧
        results'.map (fun r => (r.Hostname, r.Index, r.Result, r.Error, r.TimedOut)) =
          results.map (fun r => (r.Hostname, r.Index, r.Result, r.Error, r.TimedOut)) := by
  refine ⟨_, runConcurrentTraceroutes_eq w fmt hostnames sched,
    (invariant_run w fmt hostnames sched (fuel hostnames)).results_len,
    final_fields w fmt hostnames sched, ?_⟩
  intro other
  refine ⟨_, runConcurrentTraceroutes_eq w fmt hostnames other, ?_⟩
  rw [final_fields, final_fields]

/-- C2, as stated, fails: the code looks at `ctx.Err()` only when
`cmd.Output()` has returned an error (lines 294-296). A call that ran
`traceroute oslo.dathost.net` with a one-second timeout, whose process ended
by itself after the deadline had expired, so that `cmd.Output()` returned the
output with a nil error, returns a success: `timedOut = false`, a nil error
and the whole output. -/
theorem runTracerouteWithTimeout_late_success :
    ("traceroute", "oslo.dathost.net") ∈
      (runTracerouteWithTimeout lateProbe demoFmt "oslo.dathost.net" 1000000000).commands ∧
    (lateProbe.output "traceroute" "oslo.dathost.net" 1000000000).ctxErr
      = some CtxErr.DeadlineExceeded ∧
    runTracerouteWithTimeout lateProbe demoFmt "oslo.dathost.net" 1000000000
      = ⟨"hop1\nlate\n", none, false, [("traceroute", "oslo.dathost.net")]⟩ ∧
    ¬ ((runTracerouteWithTimeout lateProbe demoFmt "oslo.dathost.net" 1000000000).timedOut
        = true ∧
      (runTracerouteWithTimeout lateProbe demoFmt "oslo.dathost.net" 1000000000).output = "" ∧
      (runTracerouteWithTimeout lateProbe demoFmt "oslo.dathost.net" 1000000000).err
        ≠ none) := by
  decide

/-- C2, amended: a call of `runTracerouteWithTimeout` that ran an external
process (`name hostname`) which outlived the timeout, so that `cmd.Output()`
came back with an error and `ctx.Err()` is `context.DeadlineExceeded`, returns
`timedOut = true`, the empty string as output (whatever had been captured) and
the non-nil error "traceroute timed out after ...": never a success, never
partial output. -/
theorem runTracerouteWithTimeout_deadline (env : ProbeEnv) (fmt : Fmt)
    (hostname name : String) (timeout : Duration)
    (hrun : (name, hostname) ∈ (runTracerouteWithTimeout env fmt hostname timeout).commands)
    (herr : (env.output name hostname timeout).err ≠ none)
    (hctx : (env.output name hostname timeout).ctxErr = some CtxErr.DeadlineExceeded) :
    (runTracerouteWithTimeout env fmt hostname timeout).timedOut = true ∧
    (runTracerouteWithTimeout env fmt hostname timeout).output = "" ∧
    (runTracerouteWithTimeout env fmt hostname timeout).err
      = some ("traceroute timed out after " ++ fmt.duration timeout) := by
  unfold runTracerouteWithTimeout at hrun ⊢
  cases herr' : (env.output name hostname timeout).err with
  | none => exact absurd herr' herr
  | some e =>
  split_ifs at hrun ⊢ with h1 h2
  · rw [runCommand_commands] at hrun
    have hn : name = "traceroute" := by simpa using hrun
    subst hn
    simp [runCommand, herr', hctx]
  · rw [runCommand_commands] at hrun
    have hn : name = "tracert" := by simpa using hrun
    subst hn
    simp [runCommand, herr', hctx]
  · simp at hrun

/-- C2, amended, at a concrete input: `tracert oslo.dathost.net` is cut off by the
two-minute deadline after printing one hop; the hop is not returned. -/
theorem runTracerouteWithTimeout_deadline_witness :
    (slowProbe.output "tracert" "oslo.dathost.net" twoMinutes).stdout ≠ "" ∧
    (runTracerouteWithTimeout slowProbe demoFmt "oslo.dathost.net" twoMinutes).timedOut = true ∧
    (runTracerouteWithTimeout slowProbe demoFmt "oslo.dathost.net" twoMinutes).output = "" ∧
    (runTracerouteWithTimeout slowProbe demoFmt "oslo.dathost.net" twoMinutes).err
      = some ("traceroute timed out after " ++ demoFmt.duration twoMinutes) :=
  ⟨by decide,
    runTracerouteWithTimeout_deadline slowProbe demoFmt "oslo.dathost.net" "tracert" twoMinutes
      (by decide) (by decide) (by decide)⟩

/-- C3: the report loop of `main` writes exactly one section per result, in
the order of the slice, and the first line of the k-th section is
"TRACEROUTE TO: " followed by the `Hostname` of the k-th result; on the slice
returned by `runConcurrentTraceroutes` the banners are those of the input
hostnames in input order, whatever the scheduler (the completion order). -/
theorem report_order_preserving (fmt : Fmt) (file : List String)
    (results : List TracerouteResult) :
    writeResults fmt file results = file ++ (results.map (writeSection fmt)).flatten ∧
    (results.map (writeSection fmt)).length = results.length ∧
    (results.map fun r => (writeSection fmt r).head?) =
      results.map (fun r => some ("TRACEROUTE TO: " ++ r.Hostname ++ "\n")) ∧
    ∀ (w : World) (hostnames : List String) (sched : Nat → Nat),
      ∃ rs, runConcurrentTraceroutes w fmt hostnames sched = some rs ∧
        (rs.map fun r => (writeSection fmt r).head?) =
          hostnames.map (fun h => some ("TRACEROUTE TO: " ++ h ++ "\n")) := by
  refine ⟨writeResults_eq fmt results file, by simp, by simp [writeSection], ?_⟩
  intro w hostnames sched
  refine ⟨_, runConcurrentTraceroutes_eq w fmt hostnames sched, ?_⟩
  have h := final_hostnames w fmt hostnames sched
  have h2 := congrArg (List.map fun h => some ("TRACEROUTE TO: " ++ h ++ "\n")) h
  simp only [List.map_map] at h2
  rw [← h2]
  simp [writeSection, Function.comp_def]

/-- C4: for three results in input order, the first a success with output
"hop1\nhop2", the second timed out, the third failed with an execution error
(such as "command not found"), the report has three sections in input order
with status lines COMPLETED, TIMED OUT, COMPLETED, the first section holding
the raw output verbatim and the third the error text, and the summary counts
are 1 successful, 1 timed out, 1 failed. -/
theorem report_scenario (fmt : Fmt) (h1 h2 h3 : String) (s1 e1 s2 e2 s3 e3 : Time)
    (timeoutError : String) :
    writeResults fmt []
      [ ⟨h1, 0, "hop1\nhop2", none, s1, e1, false⟩,
        ⟨h2, 1, "", some timeoutError, s2, e2, true⟩,
        ⟨h3, 2, "", some "command not found", s3, e3, false⟩ ] =
      [ "TRACEROUTE TO: " ++ h1 ++ "\n",
        Repeat "~" ("TRACEROUTE TO: " ++ h1).utf8ByteSize ++ "\n",
        "Started at: " ++ fmt.clock s1 ++ "\n",
        "Completed at: " ++ fmt.clock e1 ++ "\n",
        "Duration: " ++ fmt.elapsed s1 e1 ++ "\n",
        "Status: COMPLETED\n\n",
        "hop1\nhop2",
        "\n" ++ Repeat "-" 80 ++ "\n\n",
        "TRACEROUTE TO: " ++ h2 ++ "\n",
        Repeat "~" ("TRACEROUTE TO: " ++ h2).utf8ByteSize ++ "\n",
        "Started at: " ++ fmt.clock s2 ++ "\n",
        "Completed at: " ++ fmt.clock e2 ++ "\n",
        "Duration: " ++ fmt.elapsed s2 e2 ++ "\n",
        "Status: TIMED OUT (exceeded 2-minute limit)\n\n",
        "Error running traceroute to " ++ h2 ++ ": " ++ timeoutError ++ "\n",
        "\n" ++ Repeat "-" 80 ++ "\n\n",
        "TRACEROUTE TO: " ++ h3 ++ "\n",
        Repeat "~" ("TRACEROUTE TO: " ++ h3).utf8ByteSize ++ "\n",
        "Started at: " ++ fmt.clock s3 ++ "\n",
        "Completed at: " ++ fmt.clock e3 ++ "\n",
        "Duration: " ++ fmt.elapsed s3 e3 ++ "\n",
        "Status: COMPLETED\n\n",
        "Error running traceroute to " ++ h3 ++ ": " ++ "command not found" ++ "\n",
        "\n" ++ Repeat "-" 80 ++ "\n\n" ] ∧
    summarize
      [ ⟨h1, 0, "hop1\nhop2", none, s1, e1, false⟩,
        ⟨h2, 1, "", some timeoutError, s2, e2, true⟩,
        ⟨h3, 2, "", some "command not found", s3, e3, false⟩ ] = ⟨1, 1, 1⟩ := by
  constructor
  · rfl
  · rfl

/-- C5: under every scheduler, hence every interleaving of the goroutines, the
shared counter `completed` never decreases and grows by at most one per step;
at every instant it equals the number of goroutines that have done their
increment, and at most one goroutine is between `Lock` and `Unlock`; once the
caller has returned it equals N = `len(hostnames)`, and the progress numbers
`currentCompleted` read by the N goroutines are a rearrangement of 1, ..., N:
no value duplicated, none skipped. -/
theorem completion_counter_exact (w : World) (fmt : Fmt) (hostnames : List String)
    (sched : Nat → Nat) :
    (∀ k, (run w fmt hostnames sched k).completed ≤ (run w fmt hostnames sched (k + 1)).completed ∧
      (run w fmt hostnames sched (k + 1)).completed ≤ (run w fmt hostnames sched k).completed + 1) ∧
    (∀ k, (run w fmt hostnames sched k).completed =
      sumUpTo (run w fmt hostnames sched k).spawned
        (fun i => if 7 ≤ ((run w fmt hostnames sched k).tasks i).pc then 1 else 0)) ∧
    (∀ k i j, i < (run w fmt hostnames sched k).spawned →
      j < (run w fmt hostnames sched k).spawned →
      5 ≤ ((run w fmt hostnames sched k).tasks i).pc ∧
        ((run w fmt hostnames sched k).tasks i).pc ≤ 8 →
      5 ≤ ((run w fmt hostnames sched k).tasks j).pc ∧
        ((run w fmt hostnames sched k).tasks j).pc ≤ 8 → i = j) ∧
    (run w fmt hostnames sched (fuel hostnames)).returned = true ∧
    (∀ i, i < hostnames.length →
      ((run w fmt hostnames sched (fuel hostnames)).tasks i).pc = 11) ∧
    (run w fmt hostnames sched (fuel hostnames)).completed = hostnames.length ∧
    ((List.range hostnames.length).map fun i =>
        ((run w fmt hostnames sched (fuel hostnames)).tasks i).currentCompleted).Perm
      (List.range' 1 hostnames.length) := by
  have inv := invariant_run w fmt hostnames sched (fuel hostnames)
  obtain ⟨hsp, hdone⟩ := inv.returned_done (run_returned w fmt hostnames sched)
  refine ⟨?_, ?_, ?_, run_returned w fmt hostnames sched, ?_, ?_,
    final_progress_numbers w fmt hostnames sched⟩
  · intro k
    exact completed_next (invariant_run w fmt hostnames sched k) (sched k)
  · intro k
    exact (invariant_run w fmt hostnames sched k).counted
  · intro k
    exact (invariant_run w fmt hostnames sched k).mutex
  · intro i hi
    exact hdone i (by rw [hsp]; exact hi)
  · rw [inv.counted]
    have := @sumUpTo_const (run w fmt hostnames sched (fuel hostnames)).spawned 1
      (fun i => if 7 ≤ ((run w fmt hostnames sched (fuel hostnames)).tasks i).pc then 1 else 0)
      (fun j hj => by simp [hdone j hj])
    rw [this, hsp]; simp

/-- C6: when the primary lookup fails, by a network error, a status other than
200, or a body whose whitespace-trimmed text is not a valid IP address (an HTML
error page), `getPublicIP` returns an error and `getLocalIP` does not propagate
it: it returns exactly the pair returned by `getLocalNetworkIP`. -/
theorem getLocalIP_falls_back (env : NetEnv)
    (h : (∃ e, env.get = .inl e) ∨
      (∃ resp, env.get = .inr resp ∧
        (resp.StatusCode ≠ 200 ∨
          ∃ body, resp.Body = .inr body ∧ env.parseIP (env.trimSpace body) = false))) :
    (getPublicIP env).2 ≠ none ∧ getLocalIP env = getLocalNetworkIP env := by
  have h1 : (getPublicIP env).2 ≠ none := by
    unfold getPublicIP
    rcases h with ⟨e, he⟩ | ⟨resp, hr, hs | ⟨body, hb, hp⟩⟩
    · simp [he]
    · simp [hr, hs]
    · by_cases hs : resp.StatusCode = 200 <;> simp [hr, hs, hb, hp]
  refine ⟨h1, ?_⟩
  unfold getLocalIP
  simp [h1]

/-- C6 at a concrete input: the service answers 200 with an HTML page, and
the address of the active interface is returned without error. -/
theorem getLocalIP_falls_back_witness :
    htmlPageEnv.parseIP (htmlPageEnv.trimSpace "<html><body>502 Bad Gateway</body></html>")
        = false ∧
      ((getPublicIP htmlPageEnv).2 ≠ none ∧
        getLocalIP htmlPageEnv = getLocalNetworkIP htmlPageEnv) ∧
      getLocalIP htmlPageEnv = ("192.168.1.20", none) :=
  ⟨by decide,
    getLocalIP_falls_back htmlPageEnv
      (Or.inr ⟨⟨200, .inr "<html><body>502 Bad Gateway</body></html>"⟩, rfl,
        Or.inr ⟨"<html><body>502 Bad Gateway</body></html>", rfl, by decide⟩⟩),
    by decide⟩

/-- C7, as stated, fails: an IPv4 address in the loopback range 127.0.0.0/8
that sits on an interface which is up and not flagged loopback is skipped by
the code. With `eth0` carrying 127.0.0.5 before 10.0.0.2 the code returns
10.0.0.2, not the first IPv4 address; with `eth0` carrying only 127.0.0.5 the
code fails although an up, non-loopback interface has an IPv4 address. -/
theorem getLocalNetworkIP_skips_loopback_range :
    getLocalNetworkIP loopbackFirstEnv = ("10.0.0.2", none) ∧
    claimedLocalNetworkIP loopbackFirstEnv
        [ ⟨"lo", 37, some [Addr.IPNet [127, 0, 0, 1] 8]⟩,
          ⟨"eth0", 51, some [Addr.IPNet [127, 0, 0, 5] 8, Addr.IPNet [10, 0, 0, 2] 24]⟩ ]
      = ("127.0.0.5", none) ∧
    getLocalNetworkIP loopbackOnlyEnv = ("", some "no active network interface found") ∧
    claimedLocalNetworkIP loopbackOnlyEnv [ ⟨"eth0", 51, some [Addr.IPNet [127, 0, 0, 5] 8]⟩ ]
      = ("127.0.0.5", none) := by
  decide

/-- C7, amended: for every list of network interfaces, `getLocalNetworkIP`
returns the first IPv4 address that is not itself a loopback address, in
interface order then address order, among the `*net.IPNet` addresses of the
interfaces that are up and not loopback; it fails with an error if and only if
no such interface has such an address; and a returned address always sits on
an interface that is up and not loopback. -/
theorem getLocalNetworkIP_first_non_loopback_ipv4 (env : NetEnv)
    (interfaces : List Interface) :
    getLocalNetworkIP { env with interfaces := .inr interfaces } =
      (match (eligibleAddrs interfaces).findSome? Addr.accepted with
        | some ip => (env.ipString ip, none)
        | none => ("", some "no active network interface found")) ∧
    ((getLocalNetworkIP { env with interfaces := .inr interfaces }).2 ≠ none ↔
      ∀ iface ∈ interfaces, iface.eligible = true →
        ∀ a ∈ iface.Addrs.getD [], Addr.accepted a = none) ∧
    (∀ s, getLocalNetworkIP { env with interfaces := .inr interfaces } = (s, none) →
      ∃ iface ∈ interfaces, iface.Flags &&& FlagUp ≠ 0 ∧ iface.Flags &&& FlagLoopback = 0 ∧
        ∃ addrs ip ones, iface.Addrs = some addrs ∧ Addr.IPNet ip ones ∈ addrs ∧
          IP.IsLoopback ip = false ∧ (IP.To4 ip).isSome = true ∧ s = env.ipString ip) := by
  have heq : getLocalNetworkIP { env with interfaces := .inr interfaces } =
      (match (eligibleAddrs interfaces).findSome? Addr.accepted with
        | some ip => (env.ipString ip, none)
        | none => ("", some "no active network interface found")) := by
    show scanInterfaces _ interfaces = _
    rw [scanInterfaces_eq]
    rfl
  refine ⟨heq, ?_, ?_⟩
  · rw [heq]
    cases hf : (eligibleAddrs interfaces).findSome? Addr.accepted with
    | none =>
      simp only [ne_eq, reduceCtorEq, not_false_eq_true, true_iff]
      intro iface hif hel a ha
      rw [List.findSome?_eq_none_iff] at hf
      exact hf a (List.mem_flatMap.mpr ⟨iface, List.mem_filter.mpr ⟨hif, hel⟩, ha⟩)
    | some ip =>
      simp only [ne_eq, not_true_eq_false, false_iff]
      intro hall
      have : (eligibleAddrs interfaces).findSome? Addr.accepted = none := by
        rw [List.findSome?_eq_none_iff]
        intro a ha
        obtain ⟨iface, hif, hain⟩ := List.mem_flatMap.mp ha
        obtain ⟨hif, hel⟩ := List.mem_filter.mp hif
        exact hall iface hif hel a hain
      rw [this] at hf
      exact Option.noConfusion hf
  · intro s hs
    rw [heq] at hs
    cases hf : (eligibleAddrs interfaces).findSome? Addr.accepted with
    | none => rw [hf] at hs; simp at hs
    | some ip =>
      rw [hf] at hs
      simp only [Prod.mk.injEq, and_true] at hs
      obtain ⟨a, ha, hacc⟩ := List.exists_of_findSome?_eq_some hf
      obtain ⟨iface, hif, hain⟩ := List.mem_flatMap.mp ha
      obtain ⟨hif, hel⟩ := List.mem_filter.mp hif
      simp only [Interface.eligible, Bool.not_eq_true', Bool.or_eq_false_iff,
        decide_eq_false_iff_not, ne_eq, not_not] at hel
      refine ⟨iface, hif, hel.1, hel.2, ?_⟩
      cases haddrs : iface.Addrs with
      | none => rw [haddrs] at hain; simp at hain
      | some addrs =>
        rw [haddrs] at hain
        simp only [Option.getD_some] at hain
        cases a with
        | Other text => simp [Addr.accepted] at hacc
        | IPNet ip0 ones =>
          simp only [Addr.accepted] at hacc
          split_ifs at hacc with hc
          simp only [Option.some.injEq] at hacc
          subst hacc
          simp only [Bool.and_eq_true, Bool.not_eq_true'] at hc
          exact ⟨addrs, ip0, ones, rfl, hain, hc.1, hc.2, hs.symm⟩

/-- C8: for every path the save dialog returns without error,
`getOutputFilePathGUI` returns the path with ".txt" appended when
`filepath.Ext` of it is empty and the path unchanged otherwise; the returned
path always has a non-empty extension, and the rule applied to the returned
path changes nothing. -/
theorem getOutputFilePathGUI_extension (os : GOOS) (path : String) :
    getOutputFilePathGUI os (path, none)
        = (if Ext os path = "" then path ++ ".txt" else path, none) ∧
      Ext os (getOutputFilePathGUI os (path, none)).1 ≠ "" ∧
      getOutputFilePathGUI os ((getOutputFilePathGUI os (path, none)).1, none)
        = getOutputFilePathGUI os (path, none) := by
  by_cases h : Ext os path = ""
  · simp [getOutputFilePathGUI, h, Ext_append_txt]
  · simp [getOutputFilePathGUI, h]

/-- C9: when neither "traceroute" nor "tracert" is on the search path,
`runTracerouteWithTimeout` runs no command and returns the empty output, a
non-nil error and `timedOut = false`, which the summary loop counts as failed;
an execution error of a located tool has the same shape (empty output, non-nil
error, `timedOut = false`); and when "traceroute" is found it is the command
run, whether or not "tracert" is found too. -/
theorem runTracerouteWithTimeout_no_tool (env : ProbeEnv) (fmt : Fmt) (hostname : String)
    (timeout : Duration) :
    (env.lookPath "traceroute" = false → env.lookPath "tracert" = false →
      runTracerouteWithTimeout env fmt hostname timeout
          = ⟨"", some "neither traceroute nor tracert command found", false, []⟩ ∧
        ∀ (c : Summary) (i : Nat) (t0 t1 : Time),
          countResult c ⟨hostname, i,
              (runTracerouteWithTimeout env fmt hostname timeout).output,
              (runTracerouteWithTimeout env fmt hostname timeout).err, t0, t1,
              (runTracerouteWithTimeout env fmt hostname timeout).timedOut⟩
            = { c with failed := c.failed + 1 }) ∧
    (∀ (name e : String), (env.output name hostname timeout).err = some e →
      (env.output name hostname timeout).ctxErr ≠ some CtxErr.DeadlineExceeded →
      (runCommand env fmt name hostname timeout).output = "" ∧
      (runCommand env fmt name hostname timeout).err
        = some ("command execution failed: " ++ e) ∧
      (runCommand env fmt name hostname timeout).timedOut = false) ∧
    (env.lookPath "traceroute" = true →
      runTracerouteWithTimeout env fmt hostname timeout
        = runCommand env fmt "traceroute" hostname timeout ∧
      (runTracerouteWithTimeout env fmt hostname timeout).commands
        = [("traceroute", hostname)]) := by
  refine ⟨?_, ?_, ?_⟩
  · intro h1 h2
    have h : runTracerouteWithTimeout env fmt hostname timeout
        = ⟨"", some "neither traceroute nor tracert command found", false, []⟩ := by
      simp [runTracerouteWithTimeout, h1, h2]
    refine ⟨h, ?_⟩
    intro c i t0 t1
    rw [h]
    simp [countResult]
  · intro name e he hc
    simp [runCommand, he, hc]
  · intro h1
    have h : runTracerouteWithTimeout env fmt hostname timeout
        = runCommand env fmt "traceroute" hostname timeout := by
      simp [runTracerouteWithTimeout, h1]
    exact ⟨h, by rw [h, runCommand_commands]⟩

/-- C9 at concrete inputs: on a machine with neither tool the probe of
`oslo.dathost.net` runs nothing and fails without a timeout; on a machine
with `traceroute` that is the command run. -/
theorem runTracerouteWithTimeout_no_tool_witness :
    (bareProbe.lookPath "traceroute" = false ∧ bareProbe.lookPath "tracert" = false) ∧
    runTracerouteWithTimeout bareProbe demoFmt "oslo.dathost.net" twoMinutes
      = ⟨"", some "neither traceroute nor tracert command found", false, []⟩ ∧
    healthyProbe.lookPath "traceroute" = true ∧
    (runTracerouteWithTimeout healthyProbe demoFmt "oslo.dathost.net" twoMinutes).commands
      = [("traceroute", "oslo.dathost.net")] :=
  ⟨⟨by decide, by decide⟩,
    ((runTracerouteWithTimeout_no_tool bareProbe demoFmt "oslo.dathost.net" twoMinutes).1
      (by decide) (by decide)).1,
    by decide,
    ((runTracerouteWithTimeout_no_tool healthyProbe demoFmt "oslo.dathost.net" twoMinutes).2.2
      (by decide)).2⟩

/-- C10: every triple returned by `runTracerouteWithTimeout` has
`timedOut = true` only with a non-nil error, and a non-nil error only with the
empty output; so in every slice returned by `runConcurrentTraceroutes` each
entry has this shape, and the report loop, which prints the error line instead
of `Result` when `Error` is non-nil, writes every non-empty `Result`; and the
three summary counters count three mutually exclusive classes and sum to the
number of results. -/
theorem probe_result_shape :
    (∀ (env : ProbeEnv) (fmt : Fmt) (hostname : String) (timeout : Duration),
      ((runTracerouteWithTimeout env fmt hostname timeout).timedOut = true →
        (runTracerouteWithTimeout env fmt hostname timeout).err ≠ none) ∧
      ((runTracerouteWithTimeout env fmt hostname timeout).err ≠ none →
        (runTracerouteWithTimeout env fmt hostname timeout).output = "")) ∧
    (∀ (w : World) (fmt : Fmt) (hostnames : List String) (sched : Nat → Nat),
      ∃ rs, runConcurrentTraceroutes w fmt hostnames sched = some rs ∧
        ∀ r ∈ rs, (r.TimedOut = true → r.Error ≠ none) ∧ (r.Error ≠ none → r.Result = "") ∧
          (r.Result ≠ "" → r.Result ∈ writeSection fmt r)) ∧
    (∀ results : List TracerouteResult,
      (summarize results).timedOut = results.countP (fun r => r.TimedOut) ∧
      (summarize results).failed = results.countP (fun r => !r.TimedOut && r.Error.isSome) ∧
      (summarize results).successful
        = results.countP (fun r => !r.TimedOut && r.Error.isNone) ∧
      (summarize results).successful + (summarize results).timedOut
        + (summarize results).failed = results.length) := by
  refine ⟨probe_sound, ?_, ?_⟩
  · intro w fmt hostnames sched
    refine ⟨_, runConcurrentTraceroutes_eq w fmt hostnames sched, ?_⟩
    intro r hr
    have h := final_sound w fmt hostnames sched r hr
    refine ⟨h.1, h.2, ?_⟩
    intro hne
    have he : r.Error = none := by
      by_contra hc
      exact hne (h.2 hc)
    simp [writeSection, he]
  · intro results
    have h := summarize_counts results ⟨0, 0, 0⟩
    simp only [Nat.zero_add] at h
    exact ⟨h.1, h.2.1, h.2.2, summarize_total results⟩

end ConnectionChecker
